import Mathlib

/-!
Shallow embedding of `visualfurnitura/hardware_calculator.py`.

Conventions of the embedding:
* Python `float` values are modelled as exact rationals (`ℚ`); decimal
  literals such as `0.05` denote the exact rational `5/100`.
* A Python `dict` used as a keyed registry is modelled as an association
  list with first-match lookup; insertion prepends, so the most recent
  binding for a key shadows older ones (matching dict overwrite).
* A Python `dict` used as a record with optional keys is modelled as a
  structure of `Option` fields; `d.get(k)` becomes the `Option` value and
  `d.get(k, default)` becomes `Option.getD`.
* `raise ValueError(...)` for a missing profile is modelled with
  `Except CalcError`; a raised exception propagates out of the whole call.
* Each method of the `HardwareCalculator` class takes the calculator state
  and returns the state after the call together with the result, so that
  absence of state mutation is a provable fact rather than an assumption.
-/

namespace Furnitura

/-- Data class `ProfileSystem` of `hardware_calculator.py`. -/
structure ProfileSystem where
  name : String
  axis_offset : ℚ
  sash_thickness : ℚ
  frame_width : ℚ
  sash_width : ℚ
  description : String := ""
  deriving Repr, DecidableEq

/-- Data class `HardwarePlacement` of `hardware_calculator.py`. -/
structure HardwarePlacement where
  article : String
  name : String
  x : ℚ
  y : ℚ
  rotation : ℚ
  notes : String := ""
  deriving Repr, DecidableEq

/-- One entry of a hardware template list: a Python dict with a `type` key
that is either the string `position` (keys `name`, `x_offset`, `y_offset`)
or the string `dimension` (key `name`; keys `x_offset`, `y_offset`,
`width_frac` alias `width_ratio`, `height_frac` alias `height_ratio` read
with `.get` and a default). All template dicts in the source carry
`x_offset` and `y_offset` for position entries, so those are plain fields;
the dimension entry keys are read with defaults in the source, so they are
`Option` fields here. -/
inductive TemplateRule where
  | position (name : String) (x_offset y_offset : ℚ)
  | dimension (name : String) (x_offset y_offset width_frac height_frac : Option ℚ)
  deriving Repr, DecidableEq

/-- The single error kind of the calculator: `raise ValueError` on a
profile name that is not registered. -/
inductive CalcError where
  | unknownProfile (name : String)
  deriving Repr, DecidableEq

/-- First-match lookup in an association list, modelling `d[k]` / `k in d`
on a Python dict whose inserts prepend. -/
def lookupAssoc {α : Type} : List (String × α) → String → Option α
  | [], _ => none
  | (k, v) :: rest, key => if key == k then some v else lookupAssoc rest key

/-- State of a `HardwareCalculator` instance: the `profile_systems` dict
and the `hardware_templates` dict. -/
structure HardwareCalculator where
  profile_systems : List (String × ProfileSystem)
  hardware_templates : List (String × List TemplateRule)
  deriving Repr, DecidableEq

/-- The template table built by `_initialize_default_templates`. -/
def defaultTemplates : List (String × List TemplateRule) :=
  [("hinge",
    [.position "Петля верхняя" 0.05 0.05,
     .position "Петля средняя" 0.05 0.5,
     .position "Петля нижняя" 0.05 0.95]),
   ("handle",
    [.position "Ручка" 0.5 0.75]),
   ("lock",
    [.position "Замок" 0.95 0.5]),
   ("sill",
    [.dimension "Отлив" (some 0) (some 0.99) (some 1.0) (some 0.01)])]

/-- `HardwareCalculator.__init__`: empty profile registry, default templates. -/
def HardwareCalculator.init : HardwareCalculator :=
  { profile_systems := [], hardware_templates := defaultTemplates }

/-- Method `add_profile_system`: store the profile under its name,
overwriting any previous binding of that name. -/
def add_profile_system (c : HardwareCalculator) (profile : ProfileSystem) :
    HardwareCalculator :=
  { c with profile_systems := (profile.name, profile) :: c.profile_systems }

/-- Body of the loop of `calculate_hardware_placement`: process one template
entry, appending the produced placement to the accumulator (the article
index is `len(placements) + 1` at append time). -/
def placeRule (hardware_type : String) (window_width window_height : ℚ)
    (acc : List HardwarePlacement) (item : TemplateRule) : List HardwarePlacement :=
  match item with
  | .position nm xo yo =>
      acc ++ [{ article := hardware_type ++ "-" ++ toString (acc.length + 1),
                name := nm,
                x := window_width * xo,
                y := window_height * yo,
                rotation := 0 }]
  | .dimension nm xo yo wr hr =>
      let x := window_width * xo.getD 0
      let y := window_height * yo.getD 0
      let width := window_width * wr.getD 0.1
      let height := window_height * hr.getD 0.05
      acc ++ [{ article := hardware_type ++ "-" ++ toString (acc.length + 1),
                name := nm,
                x := x + width / 2,
                y := y + height / 2,
                rotation := 0 }]

/-- Method `calculate_hardware_placement`. -/
def calculate_hardware_placement (c : HardwareCalculator)
    (window_width window_height : ℚ) (profile_name hardware_type : String) :
    HardwareCalculator × Except CalcError (List HardwarePlacement) :=
  match lookupAssoc c.profile_systems profile_name with
  | none => (c, .error (.unknownProfile profile_name))
  | some _profile =>
      let template := (lookupAssoc c.hardware_templates hardware_type).getD []
      (c, .ok (template.foldl (placeRule hardware_type window_width window_height) []))

/-- One entry of the `hardware_specs` list given to
`calculate_custom_placement`: a Python dict, all keys optional. -/
structure HardwareSpec where
  x : Option ℚ := none
  y : Option ℚ := none
  x_offset : Option ℚ := none
  y_offset : Option ℚ := none
  article : Option String := none
  name : Option String := none
  rotation : Option ℚ := none
  notes : Option String := none
  deriving Repr, DecidableEq

/-- Helper `_calculate_position`: absolute coordinate wins, else relative
offset times the dimension, else 0. -/
def calculate_position (absolute_pos relative_offset : Option ℚ) (dimension : ℚ) : ℚ :=
  match absolute_pos with
  | some a => a
  | none =>
      match relative_offset with
      | some r => dimension * r
      | none => 0

/-- Body of the loop of `calculate_custom_placement`. -/
def placeSpec (window_width window_height : ℚ)
    (acc : List HardwarePlacement) (spec : HardwareSpec) : List HardwarePlacement :=
  acc ++ [{ article := spec.article.getD ("HW-" ++ toString (acc.length + 1)),
            name := spec.name.getD ("Компонент-" ++ toString (acc.length + 1)),
            x := calculate_position spec.x spec.x_offset window_width,
            y := calculate_position spec.y spec.y_offset window_height,
            rotation := spec.rotation.getD 0,
            notes := spec.notes.getD "" }]

/-- Method `calculate_custom_placement`. -/
def calculate_custom_placement (c : HardwareCalculator)
    (window_width window_height : ℚ) (profile_name : String)
    (hardware_specs : List HardwareSpec) :
    HardwareCalculator × Except CalcError (List HardwarePlacement) :=
  match lookupAssoc c.profile_systems profile_name with
  | none => (c, .error (.unknownProfile profile_name))
  | some _profile =>
      (c, .ok (hardware_specs.foldl (placeSpec window_width window_height) []))

/-- Python `range(count)` for an `int` argument: empty when `count ≤ 0`. -/
def intRange (count : ℤ) : List ℕ := List.range count.toNat

/-- Method `calculate_symmetric_placement`. -/
def calculate_symmetric_placement (c : HardwareCalculator)
    (window_width window_height : ℚ) (profile_name : String)
    (hardware_article hardware_name : String) (count : ℤ) (alignment : String) :
    HardwareCalculator × Except CalcError (List HardwarePlacement) :=
  match lookupAssoc c.profile_systems profile_name with
  | none => (c, .error (.unknownProfile profile_name))
  | some _profile =>
      if alignment == "horizontal" then
        let x_positions : List ℚ :=
          if count == 1 then [window_width / 2]
          else
            let margin := 0.05 * window_width
            let step := if count > 1 then
                (window_width - 2 * margin) / ((count : ℚ) - 1) else 0
            (intRange count).map (fun (i : ℕ) => margin + (i : ℚ) * step)
        (c, .ok (x_positions.enum.map (fun p =>
          { article := hardware_article ++ "-" ++ toString (p.1 + 1),
            name := hardware_name ++ " " ++ toString (p.1 + 1),
            x := p.2,
            y := window_height / 2,
            rotation := 0 })))
      else if alignment == "vertical" then
        let y_positions : List ℚ :=
          if count == 1 then [window_height / 2]
          else
            let margin := 0.05 * window_height
            let step := if count > 1 then
                (window_height - 2 * margin) / ((count : ℚ) - 1) else 0
            (intRange count).map (fun (i : ℕ) => margin + (i : ℚ) * step)
        (c, .ok (y_positions.enum.map (fun p =>
          { article := hardware_article ++ "-" ++ toString (p.1 + 1),
            name := hardware_name ++ " " ++ toString (p.1 + 1),
            x := window_width / 2,
            y := p.2,
            rotation := 0 })))
      else (c, .ok [])

/-- Character-level model of Python `str.lower` on the alphabets occurring
in the source: ASCII `A`–`Z` (65–90) and Cyrillic `А`–`Я` (1040–1071) map
down by 32, `Ё` (1025) maps to `ё` (1105); everything else is unchanged. -/
def pyLowerChar (ch : Char) : Char :=
  let n := ch.toNat
  if 65 ≤ n && n ≤ 90 then Char.ofNat (n + 32)
  else if 1040 ≤ n && n ≤ 1071 then Char.ofNat (n + 32)
  else if n == 1025 then Char.ofNat 1105
  else ch

/-- Python `s.lower()` (restricted to the alphabets above). -/
def pyLower (s : String) : String := String.mk (s.toList.map pyLowerChar)

/-- Whether `needle` is a prefix of `hay` (character lists). -/
def prefixOfL : List Char → List Char → Bool
  | [], _ => true
  | _ :: _, [] => false
  | a :: as, b :: bs => a == b && prefixOfL as bs

/-- Python substring test `needle in hay` on character lists. -/
def containsSub (needle : List Char) : List Char → Bool
  | [] => needle.isEmpty
  | c :: t => prefixOfL needle (c :: t) || containsSub needle t

/-- Python substring test `needle in hay` on strings. -/
def strContains (hay needle : String) : Bool := containsSub needle.toList hay.toList

/-- Helper `_categorize_hardware_type`: ordered first-match keyword
classification of a free-text hardware name. -/
def categorize_hardware_type (hardware_name : String) : String :=
  let name_lower := pyLower hardware_name
  if ["петля", "hinge", "шарнир"].any (fun w => strContains name_lower w) then "hinge"
  else if ["ручка", "handle", "кноб"].any (fun w => strContains name_lower w) then "handle"
  else if ["замок", "lock", "засов"].any (fun w => strContains name_lower w) then "lock"
  else if ["отлив", "sill", "подоконник"].any (fun w => strContains name_lower w) then "sill"
  else if ["угол", "corner"].any (fun w => strContains name_lower w) then "corner"
  else "other"

/-- One entry of the `pdf_hardware_list` given to `calculate_from_pdf_data`:
a Python dict, all keys optional. -/
structure PdfHardwareItem where
  article : Option String := none
  name : Option String := none
  x_position : Option ℚ := none
  y_position : Option ℚ := none
  rotation : Option ℚ := none
  notes : Option String := none
  deriving Repr, DecidableEq

/-- Loop of `calculate_from_pdf_data`, threading the calculator state
through the nested `calculate_hardware_placement` calls; a raised
exception aborts the loop and propagates. -/
def pdfLoop (window_width window_height : ℚ) (profile_name : String) :
    HardwareCalculator → List HardwarePlacement → List PdfHardwareItem →
    HardwareCalculator × Except CalcError (List HardwarePlacement)
  | c, acc, [] => (c, .ok acc)
  | c, acc, hw_item :: rest =>
      match hw_item.x_position, hw_item.y_position with
      | some x, some y =>
          let placement : HardwarePlacement :=
            { article := hw_item.article.getD ("N/A"),
              name := hw_item.name.getD ("Unknown"),
              x := x,
              y := y,
              rotation := hw_item.rotation.getD 0,
              notes := hw_item.notes.getD "" }
          pdfLoop window_width window_height profile_name c (acc ++ [placement]) rest
      | _, _ =>
          let hw_type := categorize_hardware_type (hw_item.name.getD (""))
          let r := calculate_hardware_placement c window_width window_height
            profile_name hw_type
          match r.2 with
          | .error e => (r.1, .error e)
          | .ok default_placements =>
              match default_placements with
              | dp :: _ =>
                  let placement : HardwarePlacement :=
                    { article := hw_item.article.getD ("N/A"),
                      name := hw_item.name.getD ("Unknown"),
                      x := dp.x,
                      y := dp.y,
                      rotation := dp.rotation,
                      notes := hw_item.notes.getD "" }
                  pdfLoop window_width window_height profile_name r.1
                    (acc ++ [placement]) rest
              | [] =>
                  let placement : HardwarePlacement :=
                    { article := hw_item.article.getD ("N/A"),
                      name := hw_item.name.getD ("Unknown"),
                      x := window_width / 2,
                      y := window_height / 2,
                      rotation := 0,
                      notes := hw_item.notes.getD "" }
                  pdfLoop window_width window_height profile_name r.1
                    (acc ++ [placement]) rest

/-- Method `calculate_from_pdf_data`. -/
def calculate_from_pdf_data (c : HardwareCalculator)
    (window_width window_height : ℚ) (profile_name : String)
    (pdf_hardware_list : List PdfHardwareItem) :
    HardwareCalculator × Except CalcError (List HardwarePlacement) :=
  match lookupAssoc c.profile_systems profile_name with
  | none => (c, .error (.unknownProfile profile_name))
  | some _profile =>
      pdfLoop window_width window_height profile_name c [] pdf_hardware_list

/-- Result dict of `get_mounting_recommendations`. -/
structure MountingRecommendations where
  hinges : List HardwarePlacement
  handle : List HardwarePlacement
  lock : List HardwarePlacement
  sill : List HardwarePlacement
  deriving Repr, DecidableEq

/-- Method `get_mounting_recommendations`, threading the state through the
four nested `calculate_hardware_placement` calls. -/
def get_mounting_recommendations (c : HardwareCalculator)
    (window_width window_height : ℚ) (profile_name : String) :
    HardwareCalculator × Except CalcError MountingRecommendations :=
  match lookupAssoc c.profile_systems profile_name with
  | none => (c, .error (.unknownProfile profile_name))
  | some _profile =>
      let r1 := calculate_hardware_placement c window_width window_height
        profile_name "hinge"
      match r1.2 with
      | .error e => (r1.1, .error e)
      | .ok hinges =>
        let r2 := calculate_hardware_placement r1.1 window_width window_height
          profile_name "handle"
        match r2.2 with
        | .error e => (r2.1, .error e)
        | .ok handle =>
          let r3 := calculate_hardware_placement r2.1 window_width window_height
            profile_name "lock"
          match r3.2 with
          | .error e => (r3.1, .error e)
          | .ok lock =>
            let r4 := calculate_hardware_placement r3.1 window_width window_height
              profile_name "sill"
            match r4.2 with
            | .error e => (r4.1, .error e)
            | .ok sill =>
                (r4.1, .ok { hinges := hinges, handle := handle,
                             lock := lock, sill := sill })

/-- Decidable equality for `Except` results, used to evaluate witnesses. -/
instance {ε α : Type} [DecidableEq ε] [DecidableEq α] : DecidableEq (Except ε α)
  | .error a, .error b =>
      if h : a = b then .isTrue (by rw [h])
      else .isFalse (by intro hc; cases hc; exact h rfl)
  | .error _, .ok _ => .isFalse (by intro hc; cases hc)
  | .ok _, .error _ => .isFalse (by intro hc; cases hc)
  | .ok a, .ok b =>
      if h : a = b then .isTrue (by rw [h])
      else .isFalse (by intro hc; cases hc; exact h rfl)

/-! Sample data used by the witness theorems. -/

/-- A sample profile system used to build concrete calculators. -/
def sampleProfile : ProfileSystem :=
  { name := "KBE", axis_offset := 13, sash_thickness := 70,
    frame_width := 70, sash_width := 70 }

/-- A second sample profile sharing the name of `sampleProfile` but with
different field values. -/
def sampleProfileB : ProfileSystem :=
  { name := "KBE", axis_offset := 9, sash_thickness := 60,
    frame_width := 64, sash_width := 77, description := "alt" }

/-- A calculator with the sample profile registered. -/
def sampleCalc : HardwareCalculator :=
  add_profile_system HardwareCalculator.init sampleProfile

/-! Helper lemmas shared by the claim theorems. -/

/-- Every method leaves the calculator state unchanged:
`calculate_hardware_placement`. -/
theorem hardware_placement_fst (c : HardwareCalculator) (w h : ℚ) (pn ht : String) :
    (calculate_hardware_placement c w h pn ht).1 = c := by
  cases hq : lookupAssoc c.profile_systems pn <;>
    simp [calculate_hardware_placement, hq]

/-- Reduction of `calculate_hardware_placement` on a registered profile. -/
theorem hardware_placement_ok (c : HardwareCalculator) (w h : ℚ) (pn ht : String)
    (q : ProfileSystem) (hq : lookupAssoc c.profile_systems pn = some q) :
    (calculate_hardware_placement c w h pn ht).2 =
      .ok (((lookupAssoc c.hardware_templates ht).getD []).foldl
        (placeRule ht w h) []) := by
  simp [calculate_hardware_placement, hq]

/-- Reduction of `calculate_hardware_placement` on a missing profile. -/
theorem hardware_placement_err (c : HardwareCalculator) (w h : ℚ) (pn ht : String)
    (hq : lookupAssoc c.profile_systems pn = none) :
    (calculate_hardware_placement c w h pn ht).2 = .error (.unknownProfile pn) := by
  simp [calculate_hardware_placement, hq]

/-- Every method leaves the calculator state unchanged:
`calculate_custom_placement`. -/
theorem custom_placement_fst (c : HardwareCalculator) (w h : ℚ) (pn : String)
    (specs : List HardwareSpec) :
    (calculate_custom_placement c w h pn specs).1 = c := by
  cases hq : lookupAssoc c.profile_systems pn <;>
    simp [calculate_custom_placement, hq]

/-- Reduction of `calculate_custom_placement` on a registered profile. -/
theorem custom_placement_ok (c : HardwareCalculator) (w h : ℚ) (pn : String)
    (specs : List HardwareSpec) (q : ProfileSystem)
    (hq : lookupAssoc c.profile_systems pn = some q) :
    (calculate_custom_placement c w h pn specs).2 =
      .ok (specs.foldl (placeSpec w h) []) := by
  simp [calculate_custom_placement, hq]

/-- Reduction of `calculate_custom_placement` on a missing profile. -/
theorem custom_placement_err (c : HardwareCalculator) (w h : ℚ) (pn : String)
    (specs : List HardwareSpec)
    (hq : lookupAssoc c.profile_systems pn = none) :
    (calculate_custom_placement c w h pn specs).2 = .error (.unknownProfile pn) := by
  simp [calculate_custom_placement, hq]

/-- Every method leaves the calculator state unchanged:
`calculate_symmetric_placement`. -/
theorem symmetric_placement_fst (c : HardwareCalculator) (w h : ℚ)
    (pn A N : String) (count : ℤ) (alignment : String) :
    (calculate_symmetric_placement c w h pn A N count alignment).1 = c := by
  cases hq : lookupAssoc c.profile_systems pn <;>
    simp only [calculate_symmetric_placement, hq] <;>
    split <;> first | rfl | (split <;> rfl)

/-- A registered profile makes `calculate_symmetric_placement` succeed. -/
theorem symmetric_placement_isOk (c : HardwareCalculator) (w h : ℚ)
    (pn A N : String) (count : ℤ) (alignment : String) (q : ProfileSystem)
    (hq : lookupAssoc c.profile_systems pn = some q) :
    ∃ l, (calculate_symmetric_placement c w h pn A N count alignment).2 = .ok l := by
  simp only [calculate_symmetric_placement, hq]
  split
  · exact ⟨_, rfl⟩
  · split
    · exact ⟨_, rfl⟩
    · exact ⟨_, rfl⟩

/-- Reduction of `calculate_symmetric_placement` on a missing profile. -/
theorem symmetric_placement_err (c : HardwareCalculator) (w h : ℚ)
    (pn A N : String) (count : ℤ) (alignment : String)
    (hq : lookupAssoc c.profile_systems pn = none) :
    (calculate_symmetric_placement c w h pn A N count alignment).2 =
      .error (.unknownProfile pn) := by
  simp [calculate_symmetric_placement, hq]

/-- The loop of `calculate_from_pdf_data` leaves the state unchanged. -/
theorem pdfLoop_fst (w h : ℚ) (pn : String) (items : List PdfHardwareItem) :
    ∀ (c : HardwareCalculator) (acc : List HardwarePlacement),
      (pdfLoop w h pn c acc items).1 = c := by
  induction items with
  | nil => intro c acc; rfl
  | cons hw_item rest ih =>
      intro c acc
      cases hx : hw_item.x_position with
      | some x =>
          cases hy : hw_item.y_position with
          | some y =>
              simp only [pdfLoop, hx, hy]
              exact ih c _
          | none =>
              simp only [pdfLoop, hx, hy]
              cases hr : (calculate_hardware_placement c w h pn
                  (categorize_hardware_type (hw_item.name.getD ("")))).2 with
              | error e => simpa using hardware_placement_fst c w h pn _
              | ok dps =>
                  cases dps <;> simp only [] <;>
                    rw [ih, hardware_placement_fst]
      | none =>
          simp only [pdfLoop, hx]
          cases hr : (calculate_hardware_placement c w h pn
              (categorize_hardware_type (hw_item.name.getD ("")))).2 with
          | error e => simpa using hardware_placement_fst c w h pn _
          | ok dps =>
              cases dps <;> simp only [] <;>
                rw [ih, hardware_placement_fst]

/-- Every method leaves the calculator state unchanged:
`calculate_from_pdf_data`. -/
theorem pdf_data_fst (c : HardwareCalculator) (w h : ℚ) (pn : String)
    (items : List PdfHardwareItem) :
    (calculate_from_pdf_data c w h pn items).1 = c := by
  cases hq : lookupAssoc c.profile_systems pn with
  | none => simp [calculate_from_pdf_data, hq]
  | some q => simp [calculate_from_pdf_data, hq, pdfLoop_fst]

/-- A registered profile makes the loop of `calculate_from_pdf_data`
succeed: the nested `calculate_hardware_placement` calls cannot raise. -/
theorem pdfLoop_isOk (w h : ℚ) (pn : String) (items : List PdfHardwareItem) :
    ∀ (c : HardwareCalculator) (acc : List HardwarePlacement) (q : ProfileSystem),
      lookupAssoc c.profile_systems pn = some q →
      ∃ l, (pdfLoop w h pn c acc items).2 = .ok l := by
  induction items with
  | nil => intro c acc q _; exact ⟨acc, rfl⟩
  | cons hw_item rest ih =>
      intro c acc q hq
      cases hx : hw_item.x_position with
      | some x =>
          cases hy : hw_item.y_position with
          | some y =>
              simp only [pdfLoop, hx, hy]
              exact ih c _ q hq
          | none =>
              simp only [pdfLoop, hx, hy]
              rw [hardware_placement_ok c w h pn _ q hq]
              cases hdp : ((lookupAssoc c.hardware_templates
                  (categorize_hardware_type (hw_item.name.getD ("")))).getD []).foldl
                  (placeRule (categorize_hardware_type (hw_item.name.getD (""))) w h)
                  [] with
              | nil =>
                  simp only [hardware_placement_fst]
                  exact ih c _ q hq
              | cons dp dps =>
                  simp only [hardware_placement_fst]
                  exact ih c _ q hq
      | none =>
          simp only [pdfLoop, hx]
          rw [hardware_placement_ok c w h pn _ q hq]
          cases hdp : ((lookupAssoc c.hardware_templates
              (categorize_hardware_type (hw_item.name.getD ("")))).getD []).foldl
              (placeRule (categorize_hardware_type (hw_item.name.getD (""))) w h)
              [] with
          | nil =>
              simp only [hardware_placement_fst]
              exact ih c _ q hq
          | cons dp dps =>
              simp only [hardware_placement_fst]
              exact ih c _ q hq

/-- Reduction of `calculate_from_pdf_data` on a missing profile. -/
theorem pdf_data_err (c : HardwareCalculator) (w h : ℚ) (pn : String)
    (items : List PdfHardwareItem)
    (hq : lookupAssoc c.profile_systems pn = none) :
    (calculate_from_pdf_data c w h pn items).2 = .error (.unknownProfile pn) := by
  simp [calculate_from_pdf_data, hq]

/-- A registered profile makes `calculate_from_pdf_data` succeed. -/
theorem pdf_data_isOk (c : HardwareCalculator) (w h : ℚ) (pn : String)
    (items : List PdfHardwareItem) (q : ProfileSystem)
    (hq : lookupAssoc c.profile_systems pn = some q) :
    ∃ l, (calculate_from_pdf_data c w h pn items).2 = .ok l := by
  simp only [calculate_from_pdf_data, hq]
  exact pdfLoop_isOk w h pn items c [] q hq

/-- Claim C3: for every window_width w > 0, window_height h > 0, and
registered profile P: `placements_for_category(w, h, P, "hinge")` returns
exactly 3 placements, in order, all with x = 0.05*w and rotation 0, with
y-values 0.05*h, 0.5*h, 0.95*h respectively, and with article identifiers
"hinge-1", "hinge-2", "hinge-3". -/
theorem claim_C3_hinge_placements (c : HardwareCalculator) (w h : ℚ) (P : String)
    (hw : 0 < w) (hh : 0 < h)
    (hreg : lookupAssoc c.profile_systems P ≠ none)
    (htmpl : c.hardware_templates = defaultTemplates) :
    (calculate_hardware_placement c w h P "hinge").2 =
      .ok [{ article := "hinge-1", name := "Петля верхняя",
             x := 0.05 * w, y := 0.05 * h, rotation := 0 },
           { article := "hinge-2", name := "Петля средняя",
             x := 0.05 * w, y := 0.5 * h, rotation := 0 },
           { article := "hinge-3", name := "Петля нижняя",
             x := 0.05 * w, y := 0.95 * h, rotation := 0 }] := by
  obtain ⟨q, hq⟩ := Option.ne_none_iff_exists'.mp hreg
  rw [hardware_placement_ok c w h P "hinge" q hq, htmpl]
  have hlook : (lookupAssoc defaultTemplates "hinge").getD [] =
      [.position "Петля верхняя" 0.05 0.05,
       .position "Петля средняя" 0.05 0.5,
       .position "Петля нижняя" 0.05 0.95] := rfl
  rw [hlook]
  simp only [List.foldl, placeRule]
  norm_num [mul_comm]
  all_goals decide

/-- Witness for C3 at w = 1000, h = 500 on the sample calculator. -/
theorem claim_C3_hinge_placements_witness :
    (calculate_hardware_placement sampleCalc 1000 500 "KBE" "hinge").2 =
      .ok [{ article := "hinge-1", name := "Петля верхняя",
             x := 0.05 * 1000, y := 0.05 * 500, rotation := 0 },
           { article := "hinge-2", name := "Петля средняя",
             x := 0.05 * 1000, y := 0.5 * 500, rotation := 0 },
           { article := "hinge-3", name := "Петля нижняя",
             x := 0.05 * 1000, y := 0.95 * 500, rotation := 0 }] :=
  claim_C3_hinge_placements sampleCalc 1000 500 "KBE"
    (by norm_num) (by norm_num) (by decide) rfl

/-- Claim C5: for every dimension rule, `placements_for_category` emits the
rule's center point (window_width*x_offset + window_width*width_ratio/2,
window_height*y_offset + window_height*height_ratio/2); consequently, for
every w > 0, h > 0 and registered profile, the "sill" category yields
exactly one placement at (0.5*w, 0.995*h) with rotation 0. -/
theorem claim_C5_dimension_rule_center (w h : ℚ) (hw : 0 < w) (hh : 0 < h) :
    (∀ (ht nm : String) (acc : List HardwarePlacement) (xo yo wr hr : Option ℚ),
      placeRule ht w h acc (.dimension nm xo yo wr hr) =
        acc ++ [{ article := ht ++ "-" ++ toString (acc.length + 1), name := nm,
                  x := w * xo.getD 0 + w * wr.getD 0.1 / 2,
                  y := h * yo.getD 0 + h * hr.getD 0.05 / 2,
                  rotation := 0 }]) ∧
    (∀ (c : HardwareCalculator) (P : String),
      lookupAssoc c.profile_systems P ≠ none →
      c.hardware_templates = defaultTemplates →
      (calculate_hardware_placement c w h P "sill").2 =
        .ok [{ article := "sill-1", name := "Отлив",
               x := 0.5 * w, y := 0.995 * h, rotation := 0 }]) := by
  constructor
  · intro ht nm acc xo yo wr hr
    rfl
  · intro c P hreg htmpl
    obtain ⟨q, hq⟩ := Option.ne_none_iff_exists'.mp hreg
    rw [hardware_placement_ok c w h P "sill" q hq, htmpl]
    have hlook : (lookupAssoc defaultTemplates "sill").getD [] =
        [.dimension "Отлив" (some 0) (some 0.99) (some 1.0) (some 0.01)] := rfl
    rw [hlook]
    simp only [List.foldl, placeRule, Option.getD_some]
    norm_num [mul_comm]
    ring_nf
    norm_num
    all_goals decide

/-- Witness for C5 at w = 1000, h = 500 on the sample calculator. -/
theorem claim_C5_dimension_rule_center_witness :
    placeRule "sill" 1000 500 [] (.dimension "Отлив" (some 0) (some 0.99)
        (some 1.0) (some 0.01)) =
      ([] : List HardwarePlacement) ++
        [{ article := "sill" ++ "-" ++
             toString (List.length ([] : List HardwarePlacement) + 1),
           name := "Отлив",
               x := 1000 * (Option.getD (some 0) 0) +
                 1000 * (Option.getD (some 1.0) 0.1) / 2,
               y := 500 * (Option.getD (some 0.99) 0) +
                 500 * (Option.getD (some 0.01) 0.05) / 2,
               rotation := 0 }] ∧
    (calculate_hardware_placement sampleCalc 1000 500 "KBE" "sill").2 =
      .ok [{ article := "sill-1", name := "Отлив",
             x := 0.5 * 1000, y := 0.995 * 500, rotation := 0 }] := by
  have hmain := claim_C5_dimension_rule_center 1000 500 (by norm_num) (by norm_num)
  exact ⟨hmain.1 "sill" "Отлив" [] (some 0) (some 0.99) (some 1.0) (some 0.01),
         hmain.2 sampleCalc "KBE" (by decide) rfl⟩

/-- Claim C2: every calculation method (`calculate_hardware_placement`,
`calculate_custom_placement`, `calculate_symmetric_placement`,
`calculate_from_pdf_data`) raises the UnknownProfile error if and only if
the supplied profile_name was never registered; with a registered profile
each of them succeeds (profile validation precedes all other processing),
and an unknown hardware category passed with a registered profile makes
`calculate_hardware_placement` return an empty list without raising. -/
theorem claim_C2_unknown_profile_error (c : HardwareCalculator) (w h : ℚ)
    (P cat A N alignment : String) (count : ℤ)
    (specs : List HardwareSpec) (items : List PdfHardwareItem) :
    ((calculate_hardware_placement c w h P cat).2 =
        .error (.unknownProfile P) ↔ lookupAssoc c.profile_systems P = none) ∧
    ((∃ l, (calculate_hardware_placement c w h P cat).2 = .ok l) ↔
        lookupAssoc c.profile_systems P ≠ none) ∧
    ((calculate_custom_placement c w h P specs).2 =
        .error (.unknownProfile P) ↔ lookupAssoc c.profile_systems P = none) ∧
    ((∃ l, (calculate_custom_placement c w h P specs).2 = .ok l) ↔
        lookupAssoc c.profile_systems P ≠ none) ∧
    ((calculate_symmetric_placement c w h P A N count alignment).2 =
        .error (.unknownProfile P) ↔ lookupAssoc c.profile_systems P = none) ∧
    ((∃ l, (calculate_symmetric_placement c w h P A N count alignment).2 = .ok l) ↔
        lookupAssoc c.profile_systems P ≠ none) ∧
    ((calculate_from_pdf_data c w h P items).2 =
        .error (.unknownProfile P) ↔ lookupAssoc c.profile_systems P = none) ∧
    ((∃ l, (calculate_from_pdf_data c w h P items).2 = .ok l) ↔
        lookupAssoc c.profile_systems P ≠ none) ∧
    (lookupAssoc c.profile_systems P ≠ none →
      lookupAssoc c.hardware_templates cat = none →
      (calculate_hardware_placement c w h P cat).2 = .ok []) := by
  cases hq : lookupAssoc c.profile_systems P with
  | none =>
      refine ⟨⟨fun _ => rfl, fun _ => hardware_placement_err c w h P cat hq⟩,
              ⟨?_, fun hne => absurd rfl hne⟩,
              ⟨fun _ => rfl, fun _ => custom_placement_err c w h P specs hq⟩,
              ⟨?_, fun hne => absurd rfl hne⟩,
              ⟨fun _ => rfl, fun _ => symmetric_placement_err c w h P A N count alignment hq⟩,
              ⟨?_, fun hne => absurd rfl hne⟩,
              ⟨fun _ => rfl, fun _ => pdf_data_err c w h P items hq⟩,
              ⟨?_, fun hne => absurd rfl hne⟩,
              fun hne _ => absurd rfl hne⟩
      · rintro ⟨l, hl⟩
        rw [hardware_placement_err c w h P cat hq] at hl
        cases hl
      · rintro ⟨l, hl⟩
        rw [custom_placement_err c w h P specs hq] at hl
        cases hl
      · rintro ⟨l, hl⟩
        rw [symmetric_placement_err c w h P A N count alignment hq] at hl
        cases hl
      · rintro ⟨l, hl⟩
        rw [pdf_data_err c w h P items hq] at hl
        cases hl
  | some q =>
      have hne : (some q : Option ProfileSystem) ≠ none := Option.some_ne_none q
      refine ⟨⟨?_, fun hn => absurd hn hne⟩, ⟨fun _ => hne, fun _ => ⟨_, hardware_placement_ok c w h P cat q hq⟩⟩,
              ⟨?_, fun hn => absurd hn hne⟩, ⟨fun _ => hne, fun _ => ⟨_, custom_placement_ok c w h P specs q hq⟩⟩,
              ⟨?_, fun hn => absurd hn hne⟩, ⟨fun _ => hne, fun _ => symmetric_placement_isOk c w h P A N count alignment q hq⟩,
              ⟨?_, fun hn => absurd hn hne⟩, ⟨fun _ => hne, fun _ => pdf_data_isOk c w h P items q hq⟩,
              fun _ hcat => ?_⟩
      · intro hl
        rw [hardware_placement_ok c w h P cat q hq] at hl
        cases hl
      · intro hl
        rw [custom_placement_ok c w h P specs q hq] at hl
        cases hl
      · intro hl
        obtain ⟨l, hl2⟩ := symmetric_placement_isOk c w h P A N count alignment q hq
        rw [hl2] at hl
        cases hl
      · intro hl
        obtain ⟨l, hl2⟩ := pdf_data_isOk c w h P items q hq
        rw [hl2] at hl
        cases hl
      · rw [hardware_placement_ok c w h P cat q hq, hcat]
        rfl

/-- Witness for C2: the sample calculator with an unknown category returns
an empty list, and an unregistered profile name produces the
UnknownProfile error. -/
theorem claim_C2_unknown_profile_error_witness :
    (calculate_hardware_placement sampleCalc 1000 500 "KBE" "unknown_category").2 =
      .ok [] ∧
    (calculate_hardware_placement sampleCalc 1000 500 "missing" "hinge").2 =
      .error (.unknownProfile "missing") :=
  ⟨(claim_C2_unknown_profile_error sampleCalc 1000 500 "KBE" "unknown_category"
      "A" "Item" "horizontal" 2 [] []).2.2.2.2.2.2.2.2 (by decide) (by decide),
   (claim_C2_unknown_profile_error sampleCalc 1000 500 "missing" "hinge"
      "A" "Item" "horizontal" 2 [] []).1.mpr (by decide)⟩

/-- Unfolded form of the loop of `calculate_custom_placement`: the
placement built from the spec at position `k` (0-based) of the list. -/
def customBuild (window_width window_height : ℚ) (k : ℕ) :
    List HardwareSpec → List HardwarePlacement
  | [] => []
  | spec :: rest =>
      { article := spec.article.getD ("HW-" ++ toString (k + 1)),
        name := spec.name.getD ("Компонент-" ++ toString (k + 1)),
        x := calculate_position spec.x spec.x_offset window_width,
        y := calculate_position spec.y spec.y_offset window_height,
        rotation := spec.rotation.getD 0,
        notes := spec.notes.getD "" } :: customBuild window_width window_height (k + 1) rest

/-- The fold of `placeSpec` builds exactly `customBuild`. -/
theorem placeSpec_foldl_eq (w h : ℚ) (specs : List HardwareSpec) :
    ∀ acc : List HardwarePlacement,
      specs.foldl (placeSpec w h) acc = acc ++ customBuild w h acc.length specs := by
  induction specs with
  | nil => intro acc; simp [customBuild]
  | cons spec rest ih =>
      intro acc
      rw [List.foldl_cons, ih (placeSpec w h acc spec)]
      simp [placeSpec, customBuild, List.append_assoc]

/-- Length of `customBuild`. -/
theorem customBuild_length (w h : ℚ) (specs : List HardwareSpec) :
    ∀ k, (customBuild w h k specs).length = specs.length := by
  induction specs with
  | nil => intro k; rfl
  | cons spec rest ih => intro k; simp [customBuild, ih]

/-- Element `i` of `customBuild` is built from spec `i`. -/
theorem customBuild_get (w h : ℚ) (specs : List HardwareSpec) :
    ∀ (k : ℕ) (i : ℕ) (hi : i < specs.length)
      (hl : i < (customBuild w h k specs).length),
      (customBuild w h k specs).get ⟨i, hl⟩ =
        { article := (specs.get ⟨i, hi⟩).article.getD ("HW-" ++ toString (k + i + 1)),
          name := (specs.get ⟨i, hi⟩).name.getD ("Компонент-" ++ toString (k + i + 1)),
          x := calculate_position (specs.get ⟨i, hi⟩).x (specs.get ⟨i, hi⟩).x_offset w,
          y := calculate_position (specs.get ⟨i, hi⟩).y (specs.get ⟨i, hi⟩).y_offset h,
          rotation := (specs.get ⟨i, hi⟩).rotation.getD 0,
          notes := (specs.get ⟨i, hi⟩).notes.getD "" } := by
  induction specs with
  | nil => intro k i hi; cases hi
  | cons spec rest ih =>
      intro k i hi hl
      cases i with
      | zero => simp [customBuild]
      | succ j =>
          have hj : j < rest.length := Nat.lt_of_succ_lt_succ hi
          have hjl : j < (customBuild w h (k + 1) rest).length := by
            rw [customBuild_length]; exact hj
          have := ih (k + 1) j hj hjl
          simp only [customBuild, List.get_cons_succ]
          rw [this]
          have harith : k + 1 + j = k + (j + 1) := by omega
          simp [harith]

/-- Claim C4: in `calculate_custom_placement`, for every spec entry and
each axis independently, an absolute coordinate is used verbatim; otherwise
a relative offset is multiplied by the corresponding window dimension;
otherwise the coordinate is 0. In particular a spec with x = 10 and
y_offset = 0.5 on a 1000×500 window yields the placement (10, 250). -/
theorem claim_C4_custom_positions (c : HardwareCalculator) (w h : ℚ) (P : String)
    (hreg : lookupAssoc c.profile_systems P ≠ none) (specs : List HardwareSpec) :
    (∃ l, (calculate_custom_placement c w h P specs).2 = .ok l ∧
      l.length = specs.length ∧
      ∀ (i : ℕ) (hi : i < specs.length) (hl : i < l.length),
        ((l.get ⟨i, hl⟩).x =
          match (specs.get ⟨i, hi⟩).x with
          | some a => a
          | none =>
              match (specs.get ⟨i, hi⟩).x_offset with
              | some r => w * r
              | none => 0) ∧
        ((l.get ⟨i, hl⟩).y =
          match (specs.get ⟨i, hi⟩).y with
          | some a => a
          | none =>
              match (specs.get ⟨i, hi⟩).y_offset with
              | some r => h * r
              | none => 0)) ∧
    (calculate_custom_placement c 1000 500 P
        [{ x := some 10, y_offset := some 0.5 }]).2 =
      .ok [{ article := "HW-1", name := "Компонент-1",
             x := 10, y := 250, rotation := 0 }] := by
  obtain ⟨q, hq⟩ := Option.ne_none_iff_exists'.mp hreg
  constructor
  · refine ⟨customBuild w h 0 specs, ?_, customBuild_length w h specs 0, ?_⟩
    · rw [custom_placement_ok c w h P specs q hq, placeSpec_foldl_eq]
      rfl
    · intro i hi hl
      rw [customBuild_get w h specs 0 i hi hl]
      exact ⟨rfl, rfl⟩
  · rw [custom_placement_ok c 1000 500 P _ q hq, placeSpec_foldl_eq]
    simp only [customBuild, List.length_nil, List.nil_append,
      Option.getD_none, Option.getD_some, calculate_position,
      Except.ok.injEq, List.cons.injEq, HardwarePlacement.mk.injEq]
    norm_num
    all_goals decide

/-- Witness for C4 on the sample calculator and a two-entry spec list. -/
theorem claim_C4_custom_positions_witness :
    ∃ l, (calculate_custom_placement sampleCalc 1000 500 "KBE"
        [{ x := some 10, y_offset := some 0.5 }, { x_offset := some 0.25 }]).2 = .ok l ∧
      l.length = 2 ∧
      (∀ (hl : 0 < l.length), (l.get ⟨0, hl⟩).x = 10 ∧ (l.get ⟨0, hl⟩).y = 250) := by
  obtain ⟨l, hok, hlen, hget⟩ :=
    (claim_C4_custom_positions sampleCalc 1000 500 "KBE" (by decide)
      [{ x := some 10, y_offset := some 0.5 }, { x_offset := some 0.25 }]).1
  refine ⟨l, hok, hlen, ?_⟩
  intro hl
  have := hget 0 (by norm_num) hl
  refine ⟨this.1.trans (by norm_num), this.2.trans (by norm_num)⟩

/-- Reduction of `calculate_symmetric_placement` for horizontal alignment
on a registered profile, with the `margin`/`step` bindings inlined. -/
theorem symmetric_horizontal_eq (c : HardwareCalculator) (w h : ℚ)
    (pn A N : String) (count : ℤ) (q : ProfileSystem)
    (hq : lookupAssoc c.profile_systems pn = some q) :
    (calculate_symmetric_placement c w h pn A N count "horizontal").2 =
      .ok ((if count == 1 then [w / 2]
            else (intRange count).map (fun (i : ℕ) => 0.05 * w + (i : ℚ) *
              (if count > 1 then (w - 2 * (0.05 * w)) / ((count : ℚ) - 1) else 0))).enum.map
        (fun p => { article := A ++ "-" ++ toString (p.1 + 1),
                    name := N ++ " " ++ toString (p.1 + 1),
                    x := p.2, y := h / 2, rotation := 0 })) := by
  simp only [calculate_symmetric_placement, hq]
  rfl

/-- Reduction of `calculate_symmetric_placement` for vertical alignment on
a registered profile, with the `margin`/`step` bindings inlined. -/
theorem symmetric_vertical_eq (c : HardwareCalculator) (w h : ℚ)
    (pn A N : String) (count : ℤ) (q : ProfileSystem)
    (hq : lookupAssoc c.profile_systems pn = some q) :
    (calculate_symmetric_placement c w h pn A N count "vertical").2 =
      .ok ((if count == 1 then [h / 2]
            else (intRange count).map (fun (i : ℕ) => 0.05 * h + (i : ℚ) *
              (if count > 1 then (h - 2 * (0.05 * h)) / ((count : ℚ) - 1) else 0))).enum.map
        (fun p => { article := A ++ "-" ++ toString (p.1 + 1),
                    name := N ++ " " ++ toString (p.1 + 1),
                    x := w / 2, y := p.2, rotation := 0 })) := by
  simp only [calculate_symmetric_placement, hq]
  rfl

/-- An alignment other than horizontal or vertical yields no placements. -/
theorem symmetric_other_eq (c : HardwareCalculator) (w h : ℚ)
    (pn A N : String) (count : ℤ) (alignment : String) (q : ProfileSystem)
    (hq : lookupAssoc c.profile_systems pn = some q)
    (ha1 : alignment ≠ "horizontal") (ha2 : alignment ≠ "vertical") :
    (calculate_symmetric_placement c w h pn A N count alignment).2 = .ok [] := by
  have hb1 : (alignment == "horizontal") = false := beq_eq_false_iff_ne.mpr ha1
  have hb2 : (alignment == "vertical") = false := beq_eq_false_iff_ne.mpr ha2
  simp only [calculate_symmetric_placement, hq, hb1, hb2, Bool.false_eq_true,
    if_false]

/-- With `count ≤ 0` both alignments produce the empty list. -/
theorem symmetric_nonpos_eq (c : HardwareCalculator) (w h : ℚ)
    (pn A N : String) (count : ℤ) (q : ProfileSystem)
    (hq : lookupAssoc c.profile_systems pn = some q) (hcount : count ≤ 0) :
    (calculate_symmetric_placement c w h pn A N count "horizontal").2 = .ok [] ∧
    (calculate_symmetric_placement c w h pn A N count "vertical").2 = .ok [] := by
  have h1 : (count == 1) = false := by
    rw [beq_eq_false_iff_ne]; omega
  have h0 : count.toNat = 0 := Int.toNat_eq_zero.mpr hcount
  rw [symmetric_horizontal_eq c w h pn A N count q hq,
      symmetric_vertical_eq c w h pn A N count q hq]
  simp [h1, intRange, h0]

/-- With `count = 1` both alignments produce the single centered point. -/
theorem symmetric_one_eq (c : HardwareCalculator) (w h : ℚ)
    (pn A N : String) (count : ℤ) (q : ProfileSystem)
    (hq : lookupAssoc c.profile_systems pn = some q) (hcount : count = 1) :
    (calculate_symmetric_placement c w h pn A N count "horizontal").2 =
      .ok [{ article := A ++ "-" ++ toString 1, name := N ++ " " ++ toString 1,
             x := w / 2, y := h / 2, rotation := 0 }] ∧
    (calculate_symmetric_placement c w h pn A N count "vertical").2 =
      .ok [{ article := A ++ "-" ++ toString 1, name := N ++ " " ++ toString 1,
             x := w / 2, y := h / 2, rotation := 0 }] := by
  subst hcount
  rw [symmetric_horizontal_eq c w h pn A N 1 q hq,
      symmetric_vertical_eq c w h pn A N 1 q hq]
  constructor <;> simp [List.enum_singleton]

/-- With `count ≥ 2`, horizontal alignment produces points
`margin + i * step` for `i = 0 .. count-1`. -/
theorem symmetric_many_horizontal_eq (c : HardwareCalculator) (w h : ℚ)
    (pn A N : String) (count : ℤ) (q : ProfileSystem)
    (hq : lookupAssoc c.profile_systems pn = some q) (hcount : 2 ≤ count) :
    (calculate_symmetric_placement c w h pn A N count "horizontal").2 =
      .ok ((List.range count.toNat).map (fun (i : ℕ) =>
        { article := A ++ "-" ++ toString (i + 1),
          name := N ++ " " ++ toString (i + 1),
          x := 0.05 * w + (i : ℚ) * ((w - 2 * (0.05 * w)) / ((count : ℚ) - 1)),
          y := h / 2, rotation := 0 })) := by
  rw [symmetric_horizontal_eq c w h pn A N count q hq]
  have h1 : (count == 1) = false := by
    rw [beq_eq_false_iff_ne]; omega
  have h2 : count > 1 := by omega
  simp only [h1, Bool.false_eq_true, if_false, h2, if_true]
  refine congrArg Except.ok (List.ext_getElem ?_ ?_)
  · simp [List.enum_length, intRange]
  · intro i hi1 hi2
    simp [List.getElem_map, List.getElem_enum, intRange, List.getElem_range]

/-- With `count ≥ 2`, vertical alignment produces points
`margin + i * step` for `i = 0 .. count-1`. -/
theorem symmetric_many_vertical_eq (c : HardwareCalculator) (w h : ℚ)
    (pn A N : String) (count : ℤ) (q : ProfileSystem)
    (hq : lookupAssoc c.profile_systems pn = some q) (hcount : 2 ≤ count) :
    (calculate_symmetric_placement c w h pn A N count "vertical").2 =
      .ok ((List.range count.toNat).map (fun (i : ℕ) =>
        { article := A ++ "-" ++ toString (i + 1),
          name := N ++ " " ++ toString (i + 1),
          x := w / 2,
          y := 0.05 * h + (i : ℚ) * ((h - 2 * (0.05 * h)) / ((count : ℚ) - 1)),
          rotation := 0 })) := by
  rw [symmetric_vertical_eq c w h pn A N count q hq]
  have h1 : (count == 1) = false := by
    rw [beq_eq_false_iff_ne]; omega
  have h2 : count > 1 := by omega
  simp only [h1, Bool.false_eq_true, if_false, h2, if_true]
  refine congrArg Except.ok (List.ext_getElem ?_ ?_)
  · simp [List.enum_length, intRange]
  · intro i hi1 hi2
    simp [List.getElem_map, List.getElem_enum, intRange, List.getElem_range]

/-- Claim C1: for every window_width w > 0, window_height h > 0, registered
profile P, article string A, name string N, and integer count:
`placements_symmetric` with horizontal alignment returns an empty list when
count ≤ 0; a single placement at (w/2, h/2) when count = 1; and, when
count ≥ 2, exactly count placements whose x-coordinates are
margin + i*step for i = 0..count-1 with margin = 0.05*w and
step = (w - 2*margin)/(count - 1) — so the first is at margin and the last
at w - margin — and whose y-coordinate is h/2 for all of them; the
vertical alignment behaves symmetrically with the axes swapped; each
output's article is "{A}-{i+1}" and name "{N} {i+1}". -/
theorem claim_C1_symmetric_distribution (c : HardwareCalculator) (w h : ℚ)
    (hw : 0 < w) (hh : 0 < h) (P A N : String)
    (hreg : lookupAssoc c.profile_systems P ≠ none) (count : ℤ) :
    (count ≤ 0 →
      (calculate_symmetric_placement c w h P A N count "horizontal").2 = .ok [] ∧
      (calculate_symmetric_placement c w h P A N count "vertical").2 = .ok []) ∧
    (count = 1 →
      (calculate_symmetric_placement c w h P A N count "horizontal").2 =
        .ok [{ article := A ++ "-" ++ toString 1, name := N ++ " " ++ toString 1,
               x := w / 2, y := h / 2, rotation := 0 }] ∧
      (calculate_symmetric_placement c w h P A N count "vertical").2 =
        .ok [{ article := A ++ "-" ++ toString 1, name := N ++ " " ++ toString 1,
               x := w / 2, y := h / 2, rotation := 0 }]) ∧
    (2 ≤ count →
      (calculate_symmetric_placement c w h P A N count "horizontal").2 =
        .ok ((List.range count.toNat).map (fun (i : ℕ) =>
          { article := A ++ "-" ++ toString (i + 1),
            name := N ++ " " ++ toString (i + 1),
            x := 0.05 * w + (i : ℚ) * ((w - 2 * (0.05 * w)) / ((count : ℚ) - 1)),
            y := h / 2, rotation := 0 })) ∧
      (calculate_symmetric_placement c w h P A N count "vertical").2 =
        .ok ((List.range count.toNat).map (fun (i : ℕ) =>
          { article := A ++ "-" ++ toString (i + 1),
            name := N ++ " " ++ toString (i + 1),
            x := w / 2,
            y := 0.05 * h + (i : ℚ) * ((h - 2 * (0.05 * h)) / ((count : ℚ) - 1)),
            rotation := 0 })) ∧
      ((count.toNat : ℤ) = count) ∧
      (0.05 * w + ((0 : ℕ) : ℚ) * ((w - 2 * (0.05 * w)) / ((count : ℚ) - 1)) =
        0.05 * w) ∧
      (0.05 * w + ((count : ℚ) - 1) * ((w - 2 * (0.05 * w)) / ((count : ℚ) - 1)) =
        w - 0.05 * w) ∧
      (0.05 * h + ((count : ℚ) - 1) * ((h - 2 * (0.05 * h)) / ((count : ℚ) - 1)) =
        h - 0.05 * h)) := by
  obtain ⟨q, hq⟩ := Option.ne_none_iff_exists'.mp hreg
  refine ⟨fun hcount => symmetric_nonpos_eq c w h P A N count q hq hcount,
          fun hcount => symmetric_one_eq c w h P A N count q hq hcount,
          fun hcount => ?_⟩
  have hne : ((count : ℚ) - 1) ≠ 0 := by
    have h2 : (2 : ℚ) ≤ (count : ℚ) := by exact_mod_cast hcount
    intro hzero
    have : (count : ℚ) = 1 := by linarith
    linarith
  refine ⟨symmetric_many_horizontal_eq c w h P A N count q hq hcount,
          symmetric_many_vertical_eq c w h P A N count q hq hcount,
          Int.toNat_of_nonneg (by omega), by norm_num,
          by field_simp; ring, by field_simp; ring⟩

/-- Witness for C1 at count = 3 on a 1000×500 window (the spec's example:
x-positions 50, 500, 950; y = 250). -/
theorem claim_C1_symmetric_distribution_witness :
    (calculate_symmetric_placement sampleCalc 1000 500 "KBE" "A" "Item"
        3 "horizontal").2 =
      .ok ((List.range (3 : ℤ).toNat).map (fun (i : ℕ) =>
        { article := "A" ++ "-" ++ toString (i + 1),
          name := "Item" ++ " " ++ toString (i + 1),
          x := 0.05 * 1000 + (i : ℚ) *
            ((1000 - 2 * (0.05 * 1000)) / (((3 : ℤ) : ℚ) - 1)),
          y := 500 / 2, rotation := 0 })) ∧
    (calculate_symmetric_placement sampleCalc 1000 500 "KBE" "A" "Item"
        3 "vertical").2 =
      .ok ((List.range (3 : ℤ).toNat).map (fun (i : ℕ) =>
        { article := "A" ++ "-" ++ toString (i + 1),
          name := "Item" ++ " " ++ toString (i + 1),
          x := 1000 / 2,
          y := 0.05 * 500 + (i : ℚ) *
            ((500 - 2 * (0.05 * 500)) / (((3 : ℤ) : ℚ) - 1)),
          rotation := 0 })) := by
  have hmain := (claim_C1_symmetric_distribution sampleCalc 1000 500
    (by norm_num) (by norm_num) "KBE" "A" "Item" (by decide) 3).2.2 (by norm_num)
  exact ⟨hmain.1, hmain.2.1⟩

/-- Reduction of the single-item pdf fallback: an item without a full
coordinate pair is placed from the first default placement of its
classified category, or at the window center when that category has no
template. Stated for a category whose template is absent. -/
theorem pdf_single_no_template (c : HardwareCalculator) (w h : ℚ) (P : String)
    (q : ProfileSystem) (hq : lookupAssoc c.profile_systems P = some q)
    (item : PdfHardwareItem)
    (hcoord : item.x_position = none ∨ item.y_position = none)
    (hcat : lookupAssoc c.hardware_templates
      (categorize_hardware_type (item.name.getD (""))) = none) :
    (calculate_from_pdf_data c w h P [item]).2 =
      .ok [{ article := item.article.getD ("N/A"),
             name := item.name.getD ("Unknown"),
             x := w / 2, y := h / 2, rotation := 0,
             notes := item.notes.getD "" }] := by
  simp only [calculate_from_pdf_data, hq]
  have hfold : (calculate_hardware_placement c w h P
      (categorize_hardware_type (item.name.getD ("")))).2 = .ok [] := by
    rw [hardware_placement_ok c w h P _ q hq, hcat]
    rfl
  rcases hcoord with hx | hy
  · simp only [pdfLoop, hx, hfold]
    cases hy : item.y_position <;> rfl
  · cases hx : item.x_position with
    | none =>
        simp only [pdfLoop, hx, hfold]
        rfl
    | some xv =>
        simp only [pdfLoop, hx, hy, hfold]
        rfl

/-- Claim C8: free-text classification is a case-insensitive substring
match applied in the fixed priority order hinge, handle, lock, sill,
corner, returning the first matching category and "other" when none match;
an item without explicit coordinates named "Дверная ручка" classifies as
handle and is placed at the handle template's single point
(0.5*w, 0.75*h); an item classified into a category with no default
placements (such as "other") is placed at the window center (w/2, h/2). -/
theorem claim_C8_keyword_classification (c : HardwareCalculator) (w h : ℚ)
    (P : String) (hreg : lookupAssoc c.profile_systems P ≠ none)
    (htmpl : c.hardware_templates = defaultTemplates) :
    (∀ s : String,
      (["петля", "hinge", "шарнир"].any
          (fun kw => strContains (pyLower s) kw) = true →
        categorize_hardware_type s = "hinge") ∧
      (["петля", "hinge", "шарнир"].any
          (fun kw => strContains (pyLower s) kw) = false →
       ["ручка", "handle", "кноб"].any
          (fun kw => strContains (pyLower s) kw) = true →
        categorize_hardware_type s = "handle") ∧
      (["петля", "hinge", "шарнир"].any
          (fun kw => strContains (pyLower s) kw) = false →
       ["ручка", "handle", "кноб"].any
          (fun kw => strContains (pyLower s) kw) = false →
       ["замок", "lock", "засов"].any
          (fun kw => strContains (pyLower s) kw) = true →
        categorize_hardware_type s = "lock") ∧
      (["петля", "hinge", "шарнир"].any
          (fun kw => strContains (pyLower s) kw) = false →
       ["ручка", "handle", "кноб"].any
          (fun kw => strContains (pyLower s) kw) = false →
       ["замок", "lock", "засов"].any
          (fun kw => strContains (pyLower s) kw) = false →
       ["отлив", "sill", "подоконник"].any
          (fun kw => strContains (pyLower s) kw) = true →
        categorize_hardware_type s = "sill") ∧
      (["петля", "hinge", "шарнир"].any
          (fun kw => strContains (pyLower s) kw) = false →
       ["ручка", "handle", "кноб"].any
          (fun kw => strContains (pyLower s) kw) = false →
       ["замок", "lock", "засов"].any
          (fun kw => strContains (pyLower s) kw) = false →
       ["отлив", "sill", "подоконник"].any
          (fun kw => strContains (pyLower s) kw) = false →
       ["угол", "corner"].any
          (fun kw => strContains (pyLower s) kw) = true →
        categorize_hardware_type s = "corner") ∧
      (["петля", "hinge", "шарнир"].any
          (fun kw => strContains (pyLower s) kw) = false →
       ["ручка", "handle", "кноб"].any
          (fun kw => strContains (pyLower s) kw) = false →
       ["замок", "lock", "засов"].any
          (fun kw => strContains (pyLower s) kw) = false →
       ["отлив", "sill", "подоконник"].any
          (fun kw => strContains (pyLower s) kw) = false →
       ["угол", "corner"].any
          (fun kw => strContains (pyLower s) kw) = false →
        categorize_hardware_type s = "other")) ∧
    (categorize_hardware_type "Дверная ручка" = "handle" ∧
      (calculate_from_pdf_data c w h P [{ name := some "Дверная ручка" }]).2 =
        .ok [{ article := "N/A", name := "Дверная ручка",
               x := 0.5 * w, y := 0.75 * h, rotation := 0 }]) ∧
    (∀ item : PdfHardwareItem,
      (item.x_position = none ∨ item.y_position = none) →
      categorize_hardware_type (item.name.getD ("")) = "other" →
      (calculate_from_pdf_data c w h P [item]).2 =
        .ok [{ article := item.article.getD ("N/A"),
               name := item.name.getD ("Unknown"),
               x := w / 2, y := h / 2, rotation := 0,
               notes := item.notes.getD "" }]) := by
  obtain ⟨q, hq⟩ := Option.ne_none_iff_exists'.mp hreg
  refine ⟨?_, ⟨by decide, ?_⟩, ?_⟩
  · intro s
    refine ⟨fun h1 => ?_, fun h1 h2 => ?_, fun h1 h2 h3 => ?_,
            fun h1 h2 h3 h4 => ?_, fun h1 h2 h3 h4 h5 => ?_,
            fun h1 h2 h3 h4 h5 => ?_⟩ <;>
      simp_all [categorize_hardware_type]
  · simp only [calculate_from_pdf_data, hq, pdfLoop]
    have hcat : categorize_hardware_type
        ((some "Дверная ручка").getD ("")) = "handle" := by decide
    rw [hcat, hardware_placement_ok c w h P "handle" q hq, htmpl]
    have hlook : (lookupAssoc defaultTemplates "handle").getD [] =
        [.position "Ручка" 0.5 0.75] := rfl
    rw [hlook]
    simp only [List.foldl, placeRule, List.nil_append]
    norm_num [pdfLoop, mul_comm]
    all_goals decide
  · intro item hcoord hcat
    refine pdf_single_no_template c w h P q hq item hcoord ?_
    rw [hcat, htmpl]
    rfl

/-- Witness for C8: classification of concrete names (including one that
matches both hinge and handle keywords, showing priority), the pdf
placement of "Дверная ручка", and the center fallback for an unmatched
name, on the sample calculator at 1000×500. -/
theorem claim_C8_keyword_classification_witness :
    categorize_hardware_type "Дверная ручка" = "handle" ∧
    categorize_hardware_type "ПЕТЛЯ c handle" = "hinge" ∧
    categorize_hardware_type "Болт" = "other" ∧
    (calculate_from_pdf_data sampleCalc 1000 500 "KBE"
        [{ name := some "Дверная ручка" }]).2 =
      .ok [{ article := "N/A", name := "Дверная ручка",
             x := 0.5 * 1000, y := 0.75 * 500, rotation := 0 }] ∧
    (calculate_from_pdf_data sampleCalc 1000 500 "KBE"
        [{ name := some "Болт" }]).2 =
      .ok [{ article := "N/A", name := "Болт",
             x := 1000 / 2, y := 500 / 2, rotation := 0 }] := by
  have hmain := claim_C8_keyword_classification sampleCalc 1000 500 "KBE"
    (by decide) rfl
  refine ⟨hmain.2.1.1, (hmain.1 "ПЕТЛЯ c handle").1 (by decide),
          (hmain.1 "Болт").2.2.2.2.2 (by decide) (by decide) (by decide)
            (by decide) (by decide),
          hmain.2.1.2, ?_⟩
  have := hmain.2.2 { name := some "Болт" } (Or.inl rfl) (by decide)
  simpa using this

/-- Splitting the pdf loop at a list boundary: the loop over `l1 ++ l2` is
the loop over `l1` continued over `l2` unless an error aborted it. -/
theorem pdfLoop_append (w h : ℚ) (pn : String) (l1 l2 : List PdfHardwareItem) :
    ∀ (c : HardwareCalculator) (acc : List HardwarePlacement),
      pdfLoop w h pn c acc (l1 ++ l2) =
        match pdfLoop w h pn c acc l1 with
        | (c1, .ok acc1) => pdfLoop w h pn c1 acc1 l2
        | (c1, .error e) => (c1, .error e) := by
  induction l1 with
  | nil => intro c acc; rfl
  | cons item rest ih =>
      intro c acc
      cases hx : item.x_position with
      | some xv =>
          cases hy : item.y_position with
          | some yv =>
              simp only [List.cons_append, pdfLoop, hx, hy]
              exact ih c _
          | none =>
              simp only [List.cons_append, pdfLoop, hx, hy]
              cases hr : (calculate_hardware_placement c w h pn
                  (categorize_hardware_type (item.name.getD ("")))).2 with
              | error e => rfl
              | ok dps => cases dps <;> exact ih _ _
      | none =>
          simp only [List.cons_append, pdfLoop, hx]
          cases hr : (calculate_hardware_placement c w h pn
              (categorize_hardware_type (item.name.getD ("")))).2 with
          | error e => rfl
          | ok dps => cases dps <;> exact ih _ _

/-- An item that lacks a full coordinate pair is processed exactly like the
same item with both coordinates removed. -/
theorem pdfLoop_ignores_partial_coords (w h : ℚ) (pn : String)
    (item : PdfHardwareItem)
    (hcoord : item.x_position = none ∨ item.y_position = none)
    (post : List PdfHardwareItem) (c : HardwareCalculator)
    (acc : List HardwarePlacement) :
    pdfLoop w h pn c acc (item :: post) =
      pdfLoop w h pn c acc
        ({ item with x_position := none, y_position := none } :: post) := by
  rcases hcoord with hx | hy
  · simp only [pdfLoop, hx]
  · cases hx : item.x_position with
    | none => simp only [pdfLoop, hx]
    | some xv => simp only [pdfLoop, hx, hy]

/-- Claim C9: in `calculate_from_pdf_data`, a supplied coordinate pair is
used verbatim only when both x_position and y_position are present; if
exactly one of the two is present, both are ignored and the item is placed
via the category-classification fallback, exactly as if neither coordinate
had been supplied. -/
theorem claim_C9_pdf_coordinate_pair (c : HardwareCalculator) (w h : ℚ)
    (P : String) (hreg : lookupAssoc c.profile_systems P ≠ none)
    (item : PdfHardwareItem) (pre post : List PdfHardwareItem) :
    (∀ xv yv, item.x_position = some xv → item.y_position = some yv →
      (calculate_from_pdf_data c w h P [item]).2 =
        .ok [{ article := item.article.getD ("N/A"),
               name := item.name.getD ("Unknown"),
               x := xv, y := yv,
               rotation := item.rotation.getD 0,
               notes := item.notes.getD "" }]) ∧
    (item.x_position = none ∨ item.y_position = none →
      calculate_from_pdf_data c w h P (pre ++ item :: post) =
        calculate_from_pdf_data c w h P
          (pre ++ { item with x_position := none, y_position := none } :: post)) := by
  obtain ⟨q, hq⟩ := Option.ne_none_iff_exists'.mp hreg
  constructor
  · intro xv yv hx hy
    simp only [calculate_from_pdf_data, hq, pdfLoop, hx, hy, List.nil_append]
  · intro hcoord
    simp only [calculate_from_pdf_data, hq]
    rw [pdfLoop_append w h P pre (item :: post) c [],
        pdfLoop_append w h P pre
          ({ item with x_position := none, y_position := none } :: post) c []]
    cases hpre : pdfLoop w h P c [] pre with
    | mk c1 r1 =>
        cases r1 with
        | error e => rfl
        | ok acc1 =>
            simp only []
            exact pdfLoop_ignores_partial_coords w h P item hcoord post c1 acc1

/-- Witness for C9: an item carrying both coordinates is placed verbatim,
and an item carrying only x_position is processed exactly like the same
item with no coordinates at all. -/
theorem claim_C9_pdf_coordinate_pair_witness :
    (calculate_from_pdf_data sampleCalc 1000 500 "KBE"
        [{ name := some "Болт", x_position := some 100, y_position := some 200 }]).2 =
      .ok [{ article := "N/A", name := "Болт", x := 100, y := 200,
             rotation := 0 }] ∧
    calculate_from_pdf_data sampleCalc 1000 500 "KBE"
        [{ name := some "Болт", x_position := some 100 }] =
      calculate_from_pdf_data sampleCalc 1000 500 "KBE"
        [{ name := some "Болт" }] := by
  have hmain := claim_C9_pdf_coordinate_pair sampleCalc 1000 500 "KBE"
    (by decide) { name := some "Болт", x_position := some 100, y_position := some 200 }
    [] []
  have hmain2 := claim_C9_pdf_coordinate_pair sampleCalc 1000 500 "KBE"
    (by decide) { name := some "Болт", x_position := some 100 } [] []
  exact ⟨hmain.1 100 200 rfl rfl, hmain2.2 (Or.inr rfl)⟩

/-- Every method leaves the calculator state unchanged:
`get_mounting_recommendations`. -/
theorem mounting_recommendations_fst (c : HardwareCalculator) (w h : ℚ)
    (pn : String) :
    (get_mounting_recommendations c w h pn).1 = c := by
  cases hq : lookupAssoc c.profile_systems pn with
  | none => simp [get_mounting_recommendations, hq]
  | some q =>
      simp only [get_mounting_recommendations, hq]
      repeat' split
      all_goals simp [hardware_placement_fst]

/-- Claim C10: every calculation method (`calculate_hardware_placement`,
`calculate_custom_placement`, `calculate_symmetric_placement`,
`calculate_from_pdf_data`, `get_mounting_recommendations`) leaves the
calculator's state — profile registry and template table — unchanged;
only `add_profile_system` mutates the registry (prepending a binding that
shadows any earlier one for the same name), and nothing mutates the
template table after initialization. -/
theorem claim_C10_state_preservation (c : HardwareCalculator) (w h : ℚ)
    (P cat A N alignment : String) (count : ℤ) (specs : List HardwareSpec)
    (items : List PdfHardwareItem) (profile : ProfileSystem) :
    (calculate_hardware_placement c w h P cat).1 = c ∧
    (calculate_custom_placement c w h P specs).1 = c ∧
    (calculate_symmetric_placement c w h P A N count alignment).1 = c ∧
    (calculate_from_pdf_data c w h P items).1 = c ∧
    (get_mounting_recommendations c w h P).1 = c ∧
    (add_profile_system c profile).hardware_templates = c.hardware_templates ∧
    (add_profile_system c profile).profile_systems =
      (profile.name, profile) :: c.profile_systems :=
  ⟨hardware_placement_fst c w h P cat,
   custom_placement_fst c w h P specs,
   symmetric_placement_fst c w h P A N count alignment,
   pdf_data_fst c w h P items,
   mounting_recommendations_fst c w h P,
   rfl, rfl⟩

/-- The result of `calculate_hardware_placement` depends only on whether
the profile name is registered and on the template table, never on the
stored profile values. -/
theorem hardware_placement_congr (c1 c2 : HardwareCalculator) (w h : ℚ)
    (pn ht : String)
    (htm : c1.hardware_templates = c2.hardware_templates)
    (hpr : lookupAssoc c1.profile_systems pn = none ↔
      lookupAssoc c2.profile_systems pn = none) :
    (calculate_hardware_placement c1 w h pn ht).2 =
      (calculate_hardware_placement c2 w h pn ht).2 := by
  cases h1 : lookupAssoc c1.profile_systems pn with
  | none =>
      rw [hardware_placement_err _ _ _ _ _ h1,
          hardware_placement_err _ _ _ _ _ (hpr.mp h1)]
  | some q1 =>
      cases h2 : lookupAssoc c2.profile_systems pn with
      | none =>
          have := hpr.mpr h2
          rw [h1] at this
          cases this
      | some q2 =>
          rw [hardware_placement_ok _ _ _ _ _ q1 h1,
              hardware_placement_ok _ _ _ _ _ q2 h2, htm]

/-- The result of `calculate_custom_placement` depends only on whether the
profile name is registered, never on the stored profile values. -/
theorem custom_placement_congr (c1 c2 : HardwareCalculator) (w h : ℚ)
    (pn : String) (specs : List HardwareSpec)
    (hpr : lookupAssoc c1.profile_systems pn = none ↔
      lookupAssoc c2.profile_systems pn = none) :
    (calculate_custom_placement c1 w h pn specs).2 =
      (calculate_custom_placement c2 w h pn specs).2 := by
  cases h1 : lookupAssoc c1.profile_systems pn with
  | none =>
      rw [custom_placement_err _ _ _ _ _ h1,
          custom_placement_err _ _ _ _ _ (hpr.mp h1)]
  | some q1 =>
      cases h2 : lookupAssoc c2.profile_systems pn with
      | none =>
          have := hpr.mpr h2
          rw [h1] at this
          cases this
      | some q2 =>
          rw [custom_placement_ok _ _ _ _ _ q1 h1,
              custom_placement_ok _ _ _ _ _ q2 h2]

/-- The result of `calculate_symmetric_placement` depends only on whether
the profile name is registered, never on the stored profile values. -/
theorem symmetric_placement_congr (c1 c2 : HardwareCalculator) (w h : ℚ)
    (pn A N : String) (count : ℤ) (alignment : String)
    (hpr : lookupAssoc c1.profile_systems pn = none ↔
      lookupAssoc c2.profile_systems pn = none) :
    (calculate_symmetric_placement c1 w h pn A N count alignment).2 =
      (calculate_symmetric_placement c2 w h pn A N count alignment).2 := by
  cases h1 : lookupAssoc c1.profile_systems pn with
  | none =>
      rw [symmetric_placement_err _ _ _ _ _ _ _ _ h1,
          symmetric_placement_err _ _ _ _ _ _ _ _ (hpr.mp h1)]
  | some q1 =>
      cases h2 : lookupAssoc c2.profile_systems pn with
      | none =>
          have := hpr.mpr h2
          rw [h1] at this
          cases this
      | some q2 =>
          simp only [calculate_symmetric_placement, h1, h2,
            apply_ite (Prod.snd (α := HardwareCalculator)
              (β := Except CalcError (List HardwarePlacement)))]

/-- The pdf loop's result depends only on whether the profile name is
registered and on the template table, never on the stored profile values. -/
theorem pdfLoop_congr (w h : ℚ) (pn : String) (items : List PdfHardwareItem) :
    ∀ (c1 c2 : HardwareCalculator) (acc : List HardwarePlacement),
      c1.hardware_templates = c2.hardware_templates →
      (lookupAssoc c1.profile_systems pn = none ↔
        lookupAssoc c2.profile_systems pn = none) →
      (pdfLoop w h pn c1 acc items).2 = (pdfLoop w h pn c2 acc items).2 := by
  induction items with
  | nil => intros; rfl
  | cons item rest ih =>
      intro c1 c2 acc htm hpr
      cases hx : item.x_position with
      | some xv =>
          cases hy : item.y_position with
          | some yv =>
              simp only [pdfLoop, hx, hy]
              exact ih c1 c2 _ htm hpr
          | none =>
              simp only [pdfLoop, hx, hy]
              rw [← hardware_placement_congr c1 c2 w h pn
                (categorize_hardware_type (item.name.getD (""))) htm hpr]
              cases hr : (calculate_hardware_placement c1 w h pn
                  (categorize_hardware_type (item.name.getD ("")))).2 with
              | error e => rfl
              | ok dps =>
                  cases dps <;> simp only [hardware_placement_fst] <;>
                    exact ih c1 c2 _ htm hpr
      | none =>
          simp only [pdfLoop, hx]
          rw [← hardware_placement_congr c1 c2 w h pn
            (categorize_hardware_type (item.name.getD (""))) htm hpr]
          cases hr : (calculate_hardware_placement c1 w h pn
              (categorize_hardware_type (item.name.getD ("")))).2 with
          | error e => rfl
          | ok dps =>
              cases dps <;> simp only [hardware_placement_fst] <;>
                exact ih c1 c2 _ htm hpr

/-- Registration state after `add_profile_system`: the lookup misses
exactly when the key differs from the new profile's name and missed
before. -/
theorem lookup_add_profile_none (c : HardwareCalculator) (Pr : ProfileSystem)
    (pn : String) :
    (lookupAssoc (add_profile_system c Pr).profile_systems pn = none ↔
      ((pn == Pr.name) = false ∧ lookupAssoc c.profile_systems pn = none)) := by
  simp only [add_profile_system, lookupAssoc]
  split <;> simp_all

/-- Claim C7: profile field values never influence any calculation
method's output: for any two profile records P1 and P2 sharing the same
name, every calculation method returns identical results whether P1 or P2
is the profile registered under that name — only the presence of the name
in the registry matters. -/
theorem claim_C7_profile_values_irrelevant (c : HardwareCalculator)
    (P1 P2 : ProfileSystem) (hname : P1.name = P2.name) (w h : ℚ)
    (pn cat A N alignment : String) (count : ℤ) (specs : List HardwareSpec)
    (items : List PdfHardwareItem) :
    (calculate_hardware_placement (add_profile_system c P1) w h pn cat).2 =
      (calculate_hardware_placement (add_profile_system c P2) w h pn cat).2 ∧
    (calculate_custom_placement (add_profile_system c P1) w h pn specs).2 =
      (calculate_custom_placement (add_profile_system c P2) w h pn specs).2 ∧
    (calculate_symmetric_placement (add_profile_system c P1) w h pn A N
        count alignment).2 =
      (calculate_symmetric_placement (add_profile_system c P2) w h pn A N
        count alignment).2 ∧
    (calculate_from_pdf_data (add_profile_system c P1) w h pn items).2 =
      (calculate_from_pdf_data (add_profile_system c P2) w h pn items).2 := by
  have htm : (add_profile_system c P1).hardware_templates =
      (add_profile_system c P2).hardware_templates := rfl
  have hpr : lookupAssoc (add_profile_system c P1).profile_systems pn = none ↔
      lookupAssoc (add_profile_system c P2).profile_systems pn = none := by
    rw [lookup_add_profile_none, lookup_add_profile_none, hname]
  refine ⟨hardware_placement_congr _ _ w h pn cat htm hpr,
          custom_placement_congr _ _ w h pn specs hpr,
          symmetric_placement_congr _ _ w h pn A N count alignment hpr,
          ?_⟩
  cases h1 : lookupAssoc (add_profile_system c P1).profile_systems pn with
  | none =>
      rw [pdf_data_err _ _ _ _ _ h1, pdf_data_err _ _ _ _ _ (hpr.mp h1)]
  | some q1 =>
      cases h2 : lookupAssoc (add_profile_system c P2).profile_systems pn with
      | none =>
          have := hpr.mpr h2
          rw [h1] at this
          cases this
      | some q2 =>
          simp only [calculate_from_pdf_data, h1, h2]
          exact pdfLoop_congr w h pn items _ _ [] htm hpr

/-- Witness for C7: the two sample profiles share the name "KBE" but
differ in every numeric field; all four calculation methods agree. -/
theorem claim_C7_profile_values_irrelevant_witness :
    (calculate_hardware_placement
        (add_profile_system HardwareCalculator.init sampleProfile)
        1000 500 "KBE" "hinge").2 =
      (calculate_hardware_placement
        (add_profile_system HardwareCalculator.init sampleProfileB)
        1000 500 "KBE" "hinge").2 ∧
    (calculate_custom_placement
        (add_profile_system HardwareCalculator.init sampleProfile)
        1000 500 "KBE" [{ x := some 10 }]).2 =
      (calculate_custom_placement
        (add_profile_system HardwareCalculator.init sampleProfileB)
        1000 500 "KBE" [{ x := some 10 }]).2 ∧
    (calculate_symmetric_placement
        (add_profile_system HardwareCalculator.init sampleProfile)
        1000 500 "KBE" "A" "Item" 3 "horizontal").2 =
      (calculate_symmetric_placement
        (add_profile_system HardwareCalculator.init sampleProfileB)
        1000 500 "KBE" "A" "Item" 3 "horizontal").2 ∧
    (calculate_from_pdf_data
        (add_profile_system HardwareCalculator.init sampleProfile)
        1000 500 "KBE" [{ name := some "Болт" }]).2 =
      (calculate_from_pdf_data
        (add_profile_system HardwareCalculator.init sampleProfileB)
        1000 500 "KBE" [{ name := some "Болт" }]).2 :=
  claim_C7_profile_values_irrelevant HardwareCalculator.init
    sampleProfile sampleProfileB rfl 1000 500 "KBE" "hinge" "A" "Item"
    "horizontal" 3 [{ x := some 10 }] [{ name := some "Болт" }]

/-- A placement lies inside the window rectangle. -/
def withinWindow (w h : ℚ) (p : HardwarePlacement) : Prop :=
  0 ≤ p.x ∧ p.x ≤ w ∧ 0 ≤ p.y ∧ p.y ≤ h

/-- A template rule whose emitted point is a fraction of the window in
both axes: position offsets in [0,1], and for dimension rules the derived
center fraction offset + ratio/2 in [0,1]. -/
def ruleWithin : TemplateRule → Prop
  | .position _ xo yo => 0 ≤ xo ∧ xo ≤ 1 ∧ 0 ≤ yo ∧ yo ≤ 1
  | .dimension _ xo yo wr hr =>
      0 ≤ xo.getD 0 + wr.getD 0.1 / 2 ∧ xo.getD 0 + wr.getD 0.1 / 2 ≤ 1 ∧
      0 ≤ yo.getD 0 + hr.getD 0.05 / 2 ∧ yo.getD 0 + hr.getD 0.05 / 2 ≤ 1

/-- A single `placeRule` step only adds an in-window placement when the
rule's fractions are in range. -/
theorem placeRule_within (ht : String) (w h : ℚ) (hw : 0 ≤ w) (hh : 0 ≤ h)
    (acc : List HardwarePlacement) (r : TemplateRule) (hr : ruleWithin r)
    (p : HardwarePlacement) (hp : p ∈ placeRule ht w h acc r) :
    p ∈ acc ∨ withinWindow w h p := by
  cases r with
  | position nm xo yo =>
      obtain ⟨h1, h2, h3, h4⟩ := hr
      rw [placeRule, List.mem_append] at hp
      rcases hp with hp | hp
      · exact Or.inl hp
      · right
        rw [List.mem_singleton] at hp
        subst hp
        refine ⟨mul_nonneg hw h1, ?_, mul_nonneg hh h3, ?_⟩
        · calc w * xo ≤ w * 1 := mul_le_mul_of_nonneg_left h2 hw
            _ = w := mul_one w
        · calc h * yo ≤ h * 1 := mul_le_mul_of_nonneg_left h4 hh
            _ = h := mul_one h
  | dimension nm xo yo wr hr2 =>
      obtain ⟨h1, h2, h3, h4⟩ := hr
      rw [placeRule, List.mem_append] at hp
      rcases hp with hp | hp
      · exact Or.inl hp
      · right
        rw [List.mem_singleton] at hp
        subst hp
        have hx : w * xo.getD 0 + w * wr.getD 0.1 / 2 =
            w * (xo.getD 0 + wr.getD 0.1 / 2) := by ring
        have hy : h * yo.getD 0 + h * hr2.getD 0.05 / 2 =
            h * (yo.getD 0 + hr2.getD 0.05 / 2) := by ring
        refine ⟨?_, ?_, ?_, ?_⟩
        · show 0 ≤ w * xo.getD 0 + w * wr.getD 0.1 / 2
          rw [hx]; exact mul_nonneg hw h1
        · show w * xo.getD 0 + w * wr.getD 0.1 / 2 ≤ w
          rw [hx]
          calc w * (xo.getD 0 + wr.getD 0.1 / 2) ≤ w * 1 :=
              mul_le_mul_of_nonneg_left h2 hw
            _ = w := mul_one w
        · show 0 ≤ h * yo.getD 0 + h * hr2.getD 0.05 / 2
          rw [hy]; exact mul_nonneg hh h3
        · show h * yo.getD 0 + h * hr2.getD 0.05 / 2 ≤ h
          rw [hy]
          calc h * (yo.getD 0 + hr2.getD 0.05 / 2) ≤ h * 1 :=
              mul_le_mul_of_nonneg_left h4 hh
            _ = h := mul_one h

/-- The fold of `placeRule` over in-range rules keeps all placements in
the window. -/
theorem placeRule_foldl_within (ht : String) (w h : ℚ) (hw : 0 ≤ w)
    (hh : 0 ≤ h) (rules : List TemplateRule) :
    ∀ acc : List HardwarePlacement, (∀ r ∈ rules, ruleWithin r) →
      (∀ p ∈ acc, withinWindow w h p) →
      ∀ p ∈ rules.foldl (placeRule ht w h) acc, withinWindow w h p := by
  induction rules with
  | nil => intro acc _ hacc p hp; exact hacc p hp
  | cons r rest ih =>
      intro acc hrules hacc p hp
      rw [List.foldl_cons] at hp
      refine ih (placeRule ht w h acc r)
        (fun r' hr' => hrules r' (List.mem_cons_of_mem _ hr')) ?_ p hp
      intro p' hp'
      rcases placeRule_within ht w h hw hh acc r
          (hrules r (List.mem_cons_self r rest)) p' hp' with hmem | hwin
      · exact hacc p' hmem
      · exact hwin

/-- Every rule of every default template has its fractions in range. -/
theorem defaultTemplates_rules_within (cat : String)
    (rules : List TemplateRule)
    (hlk : lookupAssoc defaultTemplates cat = some rules) :
    ∀ r ∈ rules, ruleWithin r := by
  simp only [defaultTemplates, lookupAssoc] at hlk
  split at hlk
  · obtain rfl := Option.some.inj hlk
    intro r hr
    fin_cases hr <;> norm_num [ruleWithin]
  · split at hlk
    · obtain rfl := Option.some.inj hlk
      intro r hr
      fin_cases hr <;> norm_num [ruleWithin]
    · split at hlk
      · obtain rfl := Option.some.inj hlk
        intro r hr
        fin_cases hr <;> norm_num [ruleWithin]
      · split at hlk
        · obtain rfl := Option.some.inj hlk
          intro r hr
          fin_cases hr <;> norm_num [ruleWithin]
        · cases hlk

/-- All placements of `calculate_hardware_placement` under the default
templates lie inside the window. -/
theorem hardware_placement_within (c : HardwareCalculator) (w h : ℚ)
    (hw : 0 ≤ w) (hh : 0 ≤ h) (P cat : String) (q : ProfileSystem)
    (hq : lookupAssoc c.profile_systems P = some q)
    (htmpl : c.hardware_templates = defaultTemplates)
    (l : List HardwarePlacement)
    (hl : (calculate_hardware_placement c w h P cat).2 = .ok l) :
    ∀ p ∈ l, withinWindow w h p := by
  rw [hardware_placement_ok c w h P cat q hq, htmpl] at hl
  obtain rfl := Except.ok.inj hl
  cases hlk : lookupAssoc defaultTemplates cat with
  | none => simp [hlk]
  | some rules =>
      simp only [Option.getD_some]
      exact placeRule_foldl_within cat w h hw hh rules []
        (defaultTemplates_rules_within cat rules hlk) (by intro p hp; cases hp)

/-- All placements of `calculate_symmetric_placement` lie inside the
window, for every count and alignment. -/
theorem symmetric_placement_within (c : HardwareCalculator) (w h : ℚ)
    (hw : 0 < w) (hh : 0 < h) (P A N : String) (count : ℤ)
    (alignment : String) (q : ProfileSystem)
    (hq : lookupAssoc c.profile_systems P = some q)
    (l : List HardwarePlacement)
    (hl : (calculate_symmetric_placement c w h P A N count alignment).2 = .ok l) :
    ∀ p ∈ l, withinWindow w h p := by
  have hcount3 : count ≤ 0 ∨ count = 1 ∨ 2 ≤ count := by omega
  by_cases ha1 : alignment = "horizontal"
  · subst ha1
    rcases hcount3 with hc | hc | hc
    · rw [(symmetric_nonpos_eq c w h P A N count q hq hc).1] at hl
      obtain rfl := Except.ok.inj hl
      intro p hp
      cases hp
    · rw [(symmetric_one_eq c w h P A N count q hq hc).1] at hl
      obtain rfl := Except.ok.inj hl
      intro p hp
      rw [List.mem_singleton] at hp
      subst hp
      exact ⟨by positivity, by linarith, by positivity, by linarith⟩
    · rw [symmetric_many_horizontal_eq c w h P A N count q hq hc] at hl
      obtain rfl := Except.ok.inj hl
      intro p hp
      simp only [List.mem_map, List.mem_range] at hp
      obtain ⟨i, hi, rfl⟩ := hp
      have hcq : (2 : ℚ) ≤ (count : ℚ) := by exact_mod_cast hc
      have hden : (1 : ℚ) ≤ (count : ℚ) - 1 := by linarith
      have hstep : 0 ≤ (w - 2 * (0.05 * w)) / ((count : ℚ) - 1) :=
        div_nonneg (by linarith) (by linarith)
      have hiq : (i : ℚ) ≤ (count : ℚ) - 1 := by
        have h1 : (i : ℤ) + 1 ≤ count := by
          have := hi
          omega
        have : ((i : ℤ) : ℚ) + 1 ≤ (count : ℚ) := by exact_mod_cast h1
        push_cast at this ⊢
        linarith
      have hcancel : ((count : ℚ) - 1) * ((w - 2 * (0.05 * w)) / ((count : ℚ) - 1)) =
          w - 2 * (0.05 * w) := by
        field_simp
      refine ⟨?_, ?_, by positivity, by linarith⟩
      · have : 0 ≤ (i : ℚ) * ((w - 2 * (0.05 * w)) / ((count : ℚ) - 1)) :=
          mul_nonneg (by positivity) hstep
        have h05 : 0 ≤ 0.05 * w := by positivity
        show 0 ≤ 0.05 * w + (i : ℚ) * ((w - 2 * (0.05 * w)) / ((count : ℚ) - 1))
        linarith
      · have hmono : (i : ℚ) * ((w - 2 * (0.05 * w)) / ((count : ℚ) - 1)) ≤
            ((count : ℚ) - 1) * ((w - 2 * (0.05 * w)) / ((count : ℚ) - 1)) :=
          mul_le_mul_of_nonneg_right hiq hstep
        rw [hcancel] at hmono
        show 0.05 * w + (i : ℚ) * ((w - 2 * (0.05 * w)) / ((count : ℚ) - 1)) ≤ w
        have h05 : 0 ≤ 0.05 * w := by positivity
        linarith
  · by_cases ha2 : alignment = "vertical"
    · subst ha2
      rcases hcount3 with hc | hc | hc
      · rw [(symmetric_nonpos_eq c w h P A N count q hq hc).2] at hl
        obtain rfl := Except.ok.inj hl
        intro p hp
        cases hp
      · rw [(symmetric_one_eq c w h P A N count q hq hc).2] at hl
        obtain rfl := Except.ok.inj hl
        intro p hp
        rw [List.mem_singleton] at hp
        subst hp
        exact ⟨by positivity, by linarith, by positivity, by linarith⟩
      · rw [symmetric_many_vertical_eq c w h P A N count q hq hc] at hl
        obtain rfl := Except.ok.inj hl
        intro p hp
        simp only [List.mem_map, List.mem_range] at hp
        obtain ⟨i, hi, rfl⟩ := hp
        have hcq : (2 : ℚ) ≤ (count : ℚ) := by exact_mod_cast hc
        have hden : (1 : ℚ) ≤ (count : ℚ) - 1 := by linarith
        have hstep : 0 ≤ (h - 2 * (0.05 * h)) / ((count : ℚ) - 1) :=
          div_nonneg (by linarith) (by linarith)
        have hiq : (i : ℚ) ≤ (count : ℚ) - 1 := by
          have h1 : (i : ℤ) + 1 ≤ count := by
            have := hi
            omega
          have : ((i : ℤ) : ℚ) + 1 ≤ (count : ℚ) := by exact_mod_cast h1
          push_cast at this ⊢
          linarith
        have hcancel : ((count : ℚ) - 1) * ((h - 2 * (0.05 * h)) / ((count : ℚ) - 1)) =
            h - 2 * (0.05 * h) := by
          field_simp
        refine ⟨by positivity, by linarith, ?_, ?_⟩
        · have : 0 ≤ (i : ℚ) * ((h - 2 * (0.05 * h)) / ((count : ℚ) - 1)) :=
            mul_nonneg (by positivity) hstep
          have h05 : 0 ≤ 0.05 * h := by positivity
          show 0 ≤ 0.05 * h + (i : ℚ) * ((h - 2 * (0.05 * h)) / ((count : ℚ) - 1))
          linarith
        · have hmono : (i : ℚ) * ((h - 2 * (0.05 * h)) / ((count : ℚ) - 1)) ≤
              ((count : ℚ) - 1) * ((h - 2 * (0.05 * h)) / ((count : ℚ) - 1)) :=
            mul_le_mul_of_nonneg_right hiq hstep
          rw [hcancel] at hmono
          show 0.05 * h + (i : ℚ) * ((h - 2 * (0.05 * h)) / ((count : ℚ) - 1)) ≤ h
          have h05 : 0 ≤ 0.05 * h := by positivity
          linarith
    · rw [symmetric_other_eq c w h P A N count alignment q hq ha1 ha2] at hl
      obtain rfl := Except.ok.inj hl
      intro p hp
      cases hp

/-- The pdf loop keeps placements of coordinate-free items inside the
window (default templates, registered profile, positive window). -/
theorem pdfLoop_within (w h : ℚ) (hw : 0 < w) (hh : 0 < h) (P : String)
    (items : List PdfHardwareItem) :
    ∀ (c : HardwareCalculator) (acc : List HardwarePlacement)
      (q : ProfileSystem),
      lookupAssoc c.profile_systems P = some q →
      c.hardware_templates = defaultTemplates →
      (∀ it ∈ items, it.x_position = none ∨ it.y_position = none) →
      (∀ p ∈ acc, withinWindow w h p) →
      ∀ l, (pdfLoop w h P c acc items).2 = .ok l →
      ∀ p ∈ l, withinWindow w h p := by
  induction items with
  | nil =>
      intro c acc q _ _ _ hacc l hl p hp
      obtain rfl := Except.ok.inj hl
      exact hacc p hp
  | cons item rest ih =>
      intro c acc q hq htmpl hitems hacc l hl p hp
      have hcoord := hitems item (List.mem_cons_self item rest)
      have hrest : ∀ it ∈ rest, it.x_position = none ∨ it.y_position = none :=
        fun it hit => hitems it (List.mem_cons_of_mem _ hit)
      have hok := hardware_placement_ok c w h P
        (categorize_hardware_type (item.name.getD (""))) q hq
      have hwithin := hardware_placement_within c w h (le_of_lt hw) (le_of_lt hh)
        P (categorize_hardware_type (item.name.getD (""))) q hq htmpl
      rcases hcoord with hx | hy
      · simp only [pdfLoop, hx] at hl
        rw [hok] at hl
        cases hdp : ((lookupAssoc c.hardware_templates
            (categorize_hardware_type (item.name.getD ("")))).getD []).foldl
            (placeRule (categorize_hardware_type (item.name.getD (""))) w h) [] with
        | nil =>
            rw [hdp] at hl
            simp only [hardware_placement_fst] at hl
            refine ih c _ q hq htmpl hrest ?_ l hl p hp
            intro p' hp'
            rw [List.mem_append] at hp'
            rcases hp' with hp' | hp'
            · exact hacc p' hp'
            · rw [List.mem_singleton] at hp'
              subst hp'
              exact ⟨by positivity, by linarith, by positivity, by linarith⟩
        | cons dp dps =>
            rw [hdp] at hl
            simp only [hardware_placement_fst] at hl
            have hdpwin : withinWindow w h dp := by
              refine hwithin (dp :: dps) ?_ dp (List.mem_cons_self dp dps)
              rw [hok, hdp]
            refine ih c _ q hq htmpl hrest ?_ l hl p hp
            intro p' hp'
            rw [List.mem_append] at hp'
            rcases hp' with hp' | hp'
            · exact hacc p' hp'
            · rw [List.mem_singleton] at hp'
              subst hp'
              exact ⟨hdpwin.1, hdpwin.2.1, hdpwin.2.2.1, hdpwin.2.2.2⟩
      · cases hx : item.x_position with
        | some xv =>
            simp only [pdfLoop, hx, hy] at hl
            rw [hok] at hl
            cases hdp : ((lookupAssoc c.hardware_templates
                (categorize_hardware_type (item.name.getD ("")))).getD []).foldl
                (placeRule (categorize_hardware_type (item.name.getD (""))) w h) [] with
            | nil =>
                rw [hdp] at hl
                simp only [hardware_placement_fst] at hl
                refine ih c _ q hq htmpl hrest ?_ l hl p hp
                intro p' hp'
                rw [List.mem_append] at hp'
                rcases hp' with hp' | hp'
                · exact hacc p' hp'
                · rw [List.mem_singleton] at hp'
                  subst hp'
                  exact ⟨by positivity, by linarith, by positivity, by linarith⟩
            | cons dp dps =>
                rw [hdp] at hl
                simp only [hardware_placement_fst] at hl
                have hdpwin : withinWindow w h dp := by
                  refine hwithin (dp :: dps) ?_ dp (List.mem_cons_self dp dps)
                  rw [hok, hdp]
                refine ih c _ q hq htmpl hrest ?_ l hl p hp
                intro p' hp'
                rw [List.mem_append] at hp'
                rcases hp' with hp' | hp'
                · exact hacc p' hp'
                · rw [List.mem_singleton] at hp'
                  subst hp'
                  exact ⟨hdpwin.1, hdpwin.2.1, hdpwin.2.2.1, hdpwin.2.2.2⟩
        | none =>
            simp only [pdfLoop, hx] at hl
            rw [hok] at hl
            cases hdp : ((lookupAssoc c.hardware_templates
                (categorize_hardware_type (item.name.getD ("")))).getD []).foldl
                (placeRule (categorize_hardware_type (item.name.getD (""))) w h) [] with
            | nil =>
                rw [hdp] at hl
                simp only [hardware_placement_fst] at hl
                refine ih c _ q hq htmpl hrest ?_ l hl p hp
                intro p' hp'
                rw [List.mem_append] at hp'
                rcases hp' with hp' | hp'
                · exact hacc p' hp'
                · rw [List.mem_singleton] at hp'
                  subst hp'
                  exact ⟨by positivity, by linarith, by positivity, by linarith⟩
            | cons dp dps =>
                rw [hdp] at hl
                simp only [hardware_placement_fst] at hl
                have hdpwin : withinWindow w h dp := by
                  refine hwithin (dp :: dps) ?_ dp (List.mem_cons_self dp dps)
                  rw [hok, hdp]
                refine ih c _ q hq htmpl hrest ?_ l hl p hp
                intro p' hp'
                rw [List.mem_append] at hp'
                rcases hp' with hp' | hp'
                · exact hacc p' hp'
                · rw [List.mem_singleton] at hp'
                  subst hp'
                  exact ⟨hdpwin.1, hdpwin.2.1, hdpwin.2.2.1, hdpwin.2.2.2⟩

/-- Claim C6: for every window_width w > 0, window_height h > 0 and
registered profile: every placement returned by
`calculate_hardware_placement` (any category, built-in templates), by
`calculate_symmetric_placement` (any count and alignment), and by
`calculate_from_pdf_data` for items without explicit coordinates,
satisfies 0 ≤ x ≤ w and 0 ≤ y ≤ h. -/
theorem claim_C6_placements_within_window (c : HardwareCalculator) (w h : ℚ)
    (hw : 0 < w) (hh : 0 < h) (P : String)
    (hreg : lookupAssoc c.profile_systems P ≠ none)
    (htmpl : c.hardware_templates = defaultTemplates) :
    (∀ (cat : String) (l : List HardwarePlacement),
      (calculate_hardware_placement c w h P cat).2 = .ok l →
      ∀ p ∈ l, 0 ≤ p.x ∧ p.x ≤ w ∧ 0 ≤ p.y ∧ p.y ≤ h) ∧
    (∀ (A N : String) (count : ℤ) (alignment : String)
      (l : List HardwarePlacement),
      (calculate_symmetric_placement c w h P A N count alignment).2 = .ok l →
      ∀ p ∈ l, 0 ≤ p.x ∧ p.x ≤ w ∧ 0 ≤ p.y ∧ p.y ≤ h) ∧
    (∀ (items : List PdfHardwareItem) (l : List HardwarePlacement),
      (∀ it ∈ items, it.x_position = none ∨ it.y_position = none) →
      (calculate_from_pdf_data c w h P items).2 = .ok l →
      ∀ p ∈ l, 0 ≤ p.x ∧ p.x ≤ w ∧ 0 ≤ p.y ∧ p.y ≤ h) := by
  obtain ⟨q, hq⟩ := Option.ne_none_iff_exists'.mp hreg
  refine ⟨fun cat l hl =>
            hardware_placement_within c w h hw.le hh.le P cat q hq htmpl l hl,
          fun A N count alignment l hl =>
            symmetric_placement_within c w h hw hh P A N count alignment q hq l hl,
          fun items l hitems hl => ?_⟩
  simp only [calculate_from_pdf_data, hq] at hl
  exact pdfLoop_within w h hw hh P items c [] q hq htmpl hitems
    (by intro p hp; cases hp) l hl

/-- Concrete evaluation used by the C6 witness: a coordinate-free item
classified as "other" lands at the window center. -/
theorem sample_pdf_eval :
    (calculate_from_pdf_data sampleCalc 1000 500 "KBE"
        [{ name := some "Болт" }]).2 =
      .ok [{ article := "N/A", name := "Болт", x := 500, y := 250,
             rotation := 0 }] := by
  have hstep := pdf_single_no_template sampleCalc 1000 500 "KBE" sampleProfile
    rfl { name := some "Болт" } (Or.inl rfl) (by decide)
  rw [hstep]
  norm_num

/-- The placement produced in `sample_pdf_eval`. -/
def samplePdfPlacement : HardwarePlacement :=
  { article := "N/A", name := "Болт", x := 500, y := 250, rotation := 0 }

/-- Witness for C6: the placement of the coordinate-free sample item lies
inside the 1000×500 window. -/
theorem claim_C6_placements_within_window_witness :
    0 ≤ samplePdfPlacement.x ∧ samplePdfPlacement.x ≤ 1000 ∧
    0 ≤ samplePdfPlacement.y ∧ samplePdfPlacement.y ≤ 500 :=
  (claim_C6_placements_within_window sampleCalc 1000 500 (by norm_num)
      (by norm_num) "KBE" (by decide) rfl).2.2
    [{ name := some "Болт" }] [samplePdfPlacement]
    (by intro it hit; rw [List.mem_singleton] at hit; subst hit; exact Or.inl rfl)
    sample_pdf_eval samplePdfPlacement (List.mem_singleton_self samplePdfPlacement)

end Furnitura
